import Mathlib

/-!
# CV boot designer: mesh builder and STL serializer

A shallow embedding of `generateGeometry` and of the STL loop of `downloadSTL`
(`src/src/CVBootDesigner.jsx`), with the properties of the generated mesh.

Conventions of the embedding.
* JavaScript numbers are read as elements of a linearly ordered field `K`
  (exact arithmetic: `ℚ` for evaluation, `ℝ` for the geometric statements).
  `Float32Array` storage is therefore the identity on coordinates.
* `Math.sin`, `Math.cos`, `Math.PI`, `Math.sqrt` are the fields of a record
  `JSMath K` handed to every function that uses them.
* JavaScript arrays are lists, `push` appends at the end.
* Vertex indices are natural numbers; `Uint32Array` storage reduces them
  modulo `2 ^ 32`.
* The section "Double precision" reads the radius computation and the facet
  normal once more in IEEE 754 binary64 arithmetic (`JSNum`), every operation
  rounded, with signed zeros, infinities and NaN. It decides the statements
  that hold in exact arithmetic and fail in the arithmetic the program runs.
-/

namespace CVBoot

/-- The parameter record `params` (lines 5-18), one field per slider. -/
structure Params (K : Type) where
  bootLength : K
  shaftD : K
  cupD : K
  stretchSmall : K
  stretchBig : K
  wallThickness : K
  ribAmp : K
  nRibs : K
  shoulderHeight : K
  shoulderWidth : K
  flatSmallLen : K
  flatBigLen : K

/-- The functions and constants of the JavaScript `Math` object that the
source calls. -/
structure JSMath (K : Type) where
  sin : K → K
  cos : K → K
  PI : K
  sqrt : K → K

/-- `const NZ = 200` (line 50). -/
def NZ : Nat := 200

/-- `const NTheta = 80` (line 51). -/
def NTheta : Nat := 80

section Profile

variable {K : Type} [LinearOrderedField K]

/-- `innerSmallR = smallId / 2` with `smallId = shaftD * stretchSmall`
(lines 43, 45). -/
def innerSmallR (p : Params K) : K := p.shaftD * p.stretchSmall / 2

/-- `innerBigR = bigId / 2` with `bigId = cupD * stretchBig` (lines 44, 46). -/
def innerBigR (p : Params K) : K := p.cupD * p.stretchBig / 2

/-- `rSmallOuter = innerSmallR + wallThickness` (line 47). -/
def rSmallOuter (p : Params K) : K := innerSmallR p + p.wallThickness

/-- `rBigOuter = innerBigR + wallThickness` (line 48). -/
def rBigOuter (p : Params K) : K := innerBigR p + p.wallThickness

/-- `LMid = bootLength - flatSmallLen - flatBigLen` (line 52). -/
def LMid (p : Params K) : K := p.bootLength - p.flatSmallLen - p.flatBigLen

/-- `z = bootLength * i / (NZ - 1)` (line 59). -/
def sampleZ (p : Params K) (i : Nat) : K := p.bootLength * (i : K) / ((NZ : K) - 1)

/-- `inSmallFlat = z <= flatSmallLen` (line 69). -/
def inSmallFlat (p : Params K) (i : Nat) : Prop := sampleZ p i ≤ p.flatSmallLen

/-- `inBigFlat = z >= bootLength - flatBigLen` (line 70). -/
def inBigFlat (p : Params K) (i : Nat) : Prop := sampleZ p i ≥ p.bootLength - p.flatBigLen

instance (p : Params K) (i : Nat) : Decidable (inSmallFlat p i) := by
  unfold inSmallFlat; infer_instance

instance (p : Params K) (i : Nat) : Decidable (inBigFlat p i) := by
  unfold inBigFlat; infer_instance

/-- The sample falls in neither flat zone: the `else` branches of lines 65, 91
and 103. -/
def inMidsection (p : Params K) (i : Nat) : Prop := ¬ inSmallFlat p i ∧ ¬ inBigFlat p i

instance (p : Params K) (i : Nat) : Decidable (inMidsection p i) := by
  unfold inMidsection; infer_instance

/-- The normalized position `t` (lines 60-67), in exact arithmetic. Field
division is total in Lean; `sampleRadiiChecked` below tracks the divisor, and
`sampleTD` is the same computation in doubles, where `LMid` can round to 0. -/
def sampleT (p : Params K) (i : Nat) : K :=
  let z := sampleZ p i
  if z ≤ p.flatSmallLen then 0
  else if z ≥ p.bootLength - p.flatBigLen then 1
  else (z - p.flatSmallLen) / LMid p

/-- The outer radius before the final guard (lines 74-96). -/
def rOutRule (M : JSMath K) (p : Params K) (i : Nat) : K :=
  let z := sampleZ p i
  let t := sampleT p i
  if inSmallFlat p i then
    if z ≤ p.shoulderWidth then rSmallOuter p + p.shoulderHeight
    else if p.flatSmallLen - p.shoulderWidth ≤ z ∧ z ≤ p.flatSmallLen then
      rSmallOuter p + p.shoulderHeight
    else rSmallOuter p
  else if inBigFlat p i then
    if p.bootLength - p.flatBigLen ≤ z ∧ z ≤ p.bootLength - p.flatBigLen + p.shoulderWidth then
      rBigOuter p + p.shoulderHeight + 1.5
    else if z ≥ p.bootLength - p.shoulderWidth then
      rBigOuter p + p.shoulderHeight + 1.5
    else rBigOuter p + 1.5
  else
    let coreR := rSmallOuter p + (rBigOuter p - rSmallOuter p) * t
    let ribPhase := 2 * M.PI * p.nRibs * t
    let rOutRaw := coreR + p.ribAmp * M.sin ribPhase
    max rOutRaw (innerSmallR p + p.wallThickness)

/-- The inner radius (lines 98-110), from the outer radius computed before.
When `nRibs` is 0 the quotient `1 / nRibs` of line 106 is `Infinity` in
JavaScript and the test `t < firstRibZone` of line 107 is true; the field
quotient `1 / 0 = 0` would make it false, so this case is spelled out. -/
def rInRule (p : Params K) (i : Nat) (rOut : K) : K :=
  let t := sampleT p i
  if inSmallFlat p i then innerSmallR p
  else if inBigFlat p i then innerBigR p
  else
    let rInCandidate := rOut - p.wallThickness
    let rIn := min (max rInCandidate (innerSmallR p)) (innerBigR p)
    let firstRibZone := 1 / p.nRibs
    if p.nRibs = 0 ∨ t < firstRibZone then innerSmallR p else rIn

/-- The pair `(rOut, rIn)` used for the vertices of axial sample `i`
(lines 72-114), the degenerate-case guard of lines 112-114 included. -/
def sampleRadii (M : JSMath K) (p : Params K) (i : Nat) : K × K :=
  let rOut := rOutRule M p i
  let rIn := rInRule p i rOut
  let rOut := if rOut < rIn + p.wallThickness then rIn + p.wallThickness else rOut
  (rOut, rIn)

/-- Division that reports a zero divisor instead of returning a value. -/
def checkedDiv (a b : K) : Option K := if b = 0 then none else some (a / b)

/-- The radius computation of lines 59-114 once more, with every division that
the taken branch evaluates going through `checkedDiv`: the result is `none`
exactly when the sample divides by zero (where JavaScript would produce an
infinity or a NaN). -/
def sampleRadiiChecked (M : JSMath K) (p : Params K) (i : Nat) : Option (K × K) := do
  let z ← checkedDiv (p.bootLength * (i : K)) ((NZ : K) - 1)
  let inSmall : Prop := z ≤ p.flatSmallLen
  let inBig : Prop := z ≥ p.bootLength - p.flatBigLen
  let t ← (if z ≤ p.flatSmallLen then some 0
    else if z ≥ p.bootLength - p.flatBigLen then some 1
    else checkedDiv (z - p.flatSmallLen) (LMid p))
  let rOut : K :=
    if inSmall then
      if z ≤ p.shoulderWidth then rSmallOuter p + p.shoulderHeight
      else if p.flatSmallLen - p.shoulderWidth ≤ z ∧ z ≤ p.flatSmallLen then
        rSmallOuter p + p.shoulderHeight
      else rSmallOuter p
    else if inBig then
      if p.bootLength - p.flatBigLen ≤ z ∧ z ≤ p.bootLength - p.flatBigLen + p.shoulderWidth then
        rBigOuter p + p.shoulderHeight + 1.5
      else if z ≥ p.bootLength - p.shoulderWidth then
        rBigOuter p + p.shoulderHeight + 1.5
      else rBigOuter p + 1.5
    else
      let coreR := rSmallOuter p + (rBigOuter p - rSmallOuter p) * t
      let ribPhase := 2 * M.PI * p.nRibs * t
      let rOutRaw := coreR + p.ribAmp * M.sin ribPhase
      max rOutRaw (innerSmallR p + p.wallThickness)
  let rIn ← (if inSmall then some (innerSmallR p)
    else if inBig then some (innerBigR p)
    else do
      let rInCandidate := rOut - p.wallThickness
      let rIn := min (max rInCandidate (innerSmallR p)) (innerBigR p)
      let firstRibZone ← checkedDiv 1 p.nRibs
      if t < firstRibZone then some (innerSmallR p) else some rIn)
  let rOut := if rOut < rIn + p.wallThickness then rIn + p.wallThickness else rOut
  some (rOut, rIn)

end Profile

section Mesh

variable {K : Type} [LinearOrderedField K]

/-- The arrays the angular loop (lines 119-132) appends to: the flat scalar
buffer `vertices` and the two rows of vertex indices of the current sample. -/
structure RingState (K : Type) where
  vertices : List K
  outerRow : List Nat
  innerRow : List Nat

/-- The arrays the axial loop (lines 58-136) appends to. -/
structure MeshState (K : Type) where
  vertices : List K
  outerIdx : List (List Nat)
  innerIdx : List (List Nat)

/-- One iteration of the angular loop (lines 119-132). The quotient
`vertices.length / 3` is exact: the buffer holds whole positions at both
reads. -/
def ringStep (M : JSMath K) (p : Params K) (z rOut rIn : K) (s : RingState K) (j : Nat) :
    RingState K :=
  let theta := 2 * M.PI * (j : K) / (NTheta : K)
  let ct := M.cos theta
  let st := M.sin theta
  let y := p.bootLength - z
  let outerRow := s.outerRow ++ [s.vertices.length / 3]
  let vertices := s.vertices ++ [rOut * ct, y, rOut * st]
  let innerRow := s.innerRow ++ [vertices.length / 3]
  let vertices := vertices ++ [rIn * ct, y, rIn * st]
  { vertices := vertices, outerRow := outerRow, innerRow := innerRow }

/-- One iteration of the axial loop (lines 58-136): the radii of the sample,
then its ring of `NTheta` outer and inner vertices. -/
def sampleStep (M : JSMath K) (p : Params K) (s : MeshState K) (i : Nat) : MeshState K :=
  let z := sampleZ p i
  let r := sampleRadii M p i
  let ring := (List.range NTheta).foldl (ringStep M p z r.1 r.2)
    { vertices := s.vertices, outerRow := [], innerRow := [] }
  { vertices := ring.vertices
    outerIdx := s.outerIdx ++ [ring.outerRow]
    innerIdx := s.innerIdx ++ [ring.innerRow] }

/-- The vertex loop of lines 54-136. -/
def buildVertices (M : JSMath K) (p : Params K) : MeshState K :=
  (List.range NZ).foldl (sampleStep M p) { vertices := [], outerIdx := [], innerIdx := [] }

/-- The array read `rows[i][j]` of a table of vertex indices. The index loops
only read entries that the vertex loop has written (`idxAt_outerTable`,
`idxAt_innerTable`), so the default value is never returned. -/
def idxAt (rows : List (List Nat)) (i j : Nat) : Nat := (rows.getD i []).getD j 0

/-- One iteration of the inner loop of lines 141-157: the two outer and the
two inner triangles of the quad `(i, j)`. -/
def lateralStep (outerIdx innerIdx : List (List Nat)) (i : Nat) (indices : List Nat) (j : Nat) :
    List Nat :=
  let jNext := (j + 1) % NTheta
  let v00 := idxAt outerIdx i j
  let v01 := idxAt outerIdx i jNext
  let v10 := idxAt outerIdx (i + 1) j
  let v11 := idxAt outerIdx (i + 1) jNext
  let indices := indices ++ [v00, v10, v11, v00, v11, v01]
  let v00i := idxAt innerIdx i j
  let v01i := idxAt innerIdx i jNext
  let v10i := idxAt innerIdx (i + 1) j
  let v11i := idxAt innerIdx (i + 1) jNext
  indices ++ [v00i, v11i, v10i, v00i, v01i, v11i]

/-- One iteration of the end-cap loop of lines 160-174. -/
def capStep (outerIdx innerIdx : List (List Nat)) (indices : List Nat) (j : Nat) : List Nat :=
  let jNext := (j + 1) % NTheta
  let vo0 := idxAt outerIdx 0 j
  let vo1 := idxAt outerIdx 0 jNext
  let vi0 := idxAt innerIdx 0 j
  let vi1 := idxAt innerIdx 0 jNext
  let indices := indices ++ [vo0, vi1, vi0, vo0, vo1, vi1]
  let vo0b := idxAt outerIdx (NZ - 1) j
  let vo1b := idxAt outerIdx (NZ - 1) jNext
  let vi0b := idxAt innerIdx (NZ - 1) j
  let vi1b := idxAt innerIdx (NZ - 1) jNext
  indices ++ [vo0b, vi0b, vi1b, vo0b, vi1b, vo1b]

/-- The index loops of lines 138-174. -/
def buildIndices (outerIdx innerIdx : List (List Nat)) : List Nat :=
  let indices := (List.range (NZ - 1)).foldl
    (fun acc i => (List.range NTheta).foldl (lateralStep outerIdx innerIdx i) acc) []
  (List.range NTheta).foldl (capStep outerIdx innerIdx) indices

/-- Storage of an index in a `Uint32Array`. -/
def toUint32 (n : Nat) : Nat := n % 2 ^ 32

/-- The value returned by `generateGeometry`: the scalar buffer `vertices`
(three scalars per position) and the buffer `indices`. -/
structure Geometry (K : Type) where
  vertices : List K
  indices : List Nat

/-- The function `generateGeometry` (lines 42-177). -/
def generateGeometry (M : JSMath K) (p : Params K) : Geometry K :=
  let s := buildVertices M p
  { vertices := s.vertices
    indices := (buildIndices s.outerIdx s.innerIdx).map toUint32 }

end Mesh

section Serializer

variable {K : Type} [LinearOrderedField K]

/-- The cross product `(nx, ny, nz)` of `u = b - a` and `v = c - a`
(lines 193-197). -/
def triNormal (a b c : K × K × K) : K × K × K :=
  let ux := b.1 - a.1
  let uy := b.2.1 - a.2.1
  let uz := b.2.2 - a.2.2
  let vx := c.1 - a.1
  let vy := c.2.1 - a.2.1
  let vz := c.2.2 - a.2.2
  let nx := uy * vz - uz * vy
  let ny := uz * vx - ux * vz
  let nz := ux * vy - uy * vx
  (nx, ny, nz)

/-- `len = Math.sqrt(nx * nx + ny * ny + nz * nz) || 1` (line 198): the
operator `||` replaces a zero by 1. -/
def normalLen (M : JSMath K) (n : K × K × K) : K :=
  let s := M.sqrt (n.1 * n.1 + n.2.1 * n.2.1 + n.2.2 * n.2.2)
  if s = 0 then 1 else s

/-- The three scalars `vertices[a], vertices[a + 1], vertices[a + 2]` of
lines 189-191; `none` when one of the reads is out of bounds (JavaScript reads
`undefined`, and formatting it throws). -/
def readVertex (vertices : List K) (a : Nat) : Option (K × K × K) := do
  let x ← vertices.get? a
  let y ← vertices.get? (a + 1)
  let z ← vertices.get? (a + 2)
  some (x, y, z)

/-- The text appended by one iteration of the STL loop (lines 185-206), for the
triangle whose first index sits at position `i` of `indices`. The parameter
`fmt` is `toExponential(6)`. -/
def facetText (fmt : K → String) (M : JSMath K) (vertices : List K) (indices : List Nat)
    (i : Nat) : Option String := do
  let a := (← indices.get? i) * 3
  let b := (← indices.get? (i + 1)) * 3
  let c := (← indices.get? (i + 2)) * 3
  let pa ← readVertex vertices a
  let pb ← readVertex vertices b
  let pc ← readVertex vertices c
  let n := triNormal pa pb pc
  let len := normalLen M n
  some ("  facet normal " ++ fmt (n.1 / len) ++ " " ++ fmt (n.2.1 / len) ++ " "
      ++ fmt (n.2.2 / len) ++ "\n"
    ++ "    outer loop\n"
    ++ ("      vertex " ++ fmt pa.1 ++ " " ++ fmt pa.2.1 ++ " " ++ fmt pa.2.2 ++ "\n")
    ++ ("      vertex " ++ fmt pb.1 ++ " " ++ fmt pb.2.1 ++ " " ++ fmt pb.2.2 ++ "\n")
    ++ ("      vertex " ++ fmt pc.1 ++ " " ++ fmt pc.2.1 ++ " " ++ fmt pc.2.2 ++ "\n")
    ++ "    endloop\n"
    ++ "  endfacet\n")

/-- The loop `for (let i = 0; i < indices.length; i += 3)` of lines 184-207,
started at position `i` with the text `stl` built so far. -/
def stlLoop (fmt : K → String) (M : JSMath K) (vertices : List K) (indices : List Nat)
    (i : Nat) (stl : String) : Option String :=
  if i < indices.length then
    match facetText fmt M vertices indices i with
    | none => none
    | some rec => stlLoop fmt M vertices indices (i + 3) (stl ++ rec)
  else some stl
termination_by indices.length - i
decreasing_by omega

/-- The document built by `downloadSTL` (lines 182-209) from the two buffers. -/
def stlText (fmt : K → String) (M : JSMath K) (vertices : List K) (indices : List Nat) :
    Option String :=
  (stlLoop fmt M vertices indices 0 "solid cv_boot\n").map (fun stl => stl ++ "endsolid cv_boot\n")

/-- The text `downloadSTL` saves: the document of the mesh of `params`. -/
def downloadSTL (fmt : K → String) (M : JSMath K) (p : Params K) : Option String :=
  let g := generateGeometry M p
  stlText fmt M g.vertices g.indices

end Serializer

section ClosedForms

variable {K : Type} [LinearOrderedField K]

/-- The angle `theta = 2 * Math.PI * j / NTheta` of angular sample `j`
(line 120). -/
def sampleTheta (M : JSMath K) (j : Nat) : K := 2 * M.PI * (j : K) / (NTheta : K)

/-- The outer vertex position pushed for the pair `(i, j)` (line 128). -/
def outerPos (M : JSMath K) (p : Params K) (i j : Nat) : K × K × K :=
  ((sampleRadii M p i).1 * M.cos (sampleTheta M j), p.bootLength - sampleZ p i,
    (sampleRadii M p i).1 * M.sin (sampleTheta M j))

/-- The inner vertex position pushed for the pair `(i, j)` (line 131). -/
def innerPos (M : JSMath K) (p : Params K) (i j : Nat) : K × K × K :=
  ((sampleRadii M p i).2 * M.cos (sampleTheta M j), p.bootLength - sampleZ p i,
    (sampleRadii M p i).2 * M.sin (sampleTheta M j))

/-- The six scalars one iteration of the angular loop pushes. -/
def ringScalars (M : JSMath K) (p : Params K) (z rOut rIn : K) (j : Nat) : List K :=
  [rOut * M.cos (sampleTheta M j), p.bootLength - z, rOut * M.sin (sampleTheta M j),
   rIn * M.cos (sampleTheta M j), p.bootLength - z, rIn * M.sin (sampleTheta M j)]

/-- The scalars one iteration of the axial loop pushes. -/
def rowScalars (M : JSMath K) (p : Params K) (i : Nat) : List K :=
  (List.range NTheta).flatMap
    (ringScalars M p (sampleZ p i) (sampleRadii M p i).1 (sampleRadii M p i).2)

/-- The vertex index of the outer vertex of the pair `(i, j)`. -/
def outerVertex (i j : Nat) : Nat := 2 * (i * NTheta + j)

/-- The vertex index of the inner vertex of the pair `(i, j)`. -/
def innerVertex (i j : Nat) : Nat := 2 * (i * NTheta + j) + 1

/-- The table `outerIdx` after the vertex loop. -/
def outerTable : List (List Nat) :=
  (List.range NZ).map (fun i => (List.range NTheta).map (fun j => outerVertex i j))

/-- The table `innerIdx` after the vertex loop. -/
def innerTable : List (List Nat) :=
  (List.range NZ).map (fun i => (List.range NTheta).map (fun j => innerVertex i j))

/-- The position stored for vertex index `v` in a scalar buffer. -/
def vertexAt (vertices : List K) (v : Nat) : Option (K × K × K) := readVertex vertices (v * 3)

/-- The twelve indices pushed for the quad `(i, j)` (lines 143-155), with the
tables of the vertex loop read off in closed form. -/
def lateralQuad (i j : Nat) : List Nat :=
  [outerVertex i j, outerVertex (i + 1) j, outerVertex (i + 1) ((j + 1) % NTheta),
   outerVertex i j, outerVertex (i + 1) ((j + 1) % NTheta), outerVertex i ((j + 1) % NTheta),
   innerVertex i j, innerVertex (i + 1) ((j + 1) % NTheta), innerVertex (i + 1) j,
   innerVertex i j, innerVertex i ((j + 1) % NTheta), innerVertex (i + 1) ((j + 1) % NTheta)]

/-- The twelve indices pushed for the two end caps at angular step `j`
(lines 161-173). -/
def capQuad (j : Nat) : List Nat :=
  [outerVertex 0 j, innerVertex 0 ((j + 1) % NTheta), innerVertex 0 j,
   outerVertex 0 j, outerVertex 0 ((j + 1) % NTheta), innerVertex 0 ((j + 1) % NTheta),
   outerVertex (NZ - 1) j, innerVertex (NZ - 1) j, innerVertex (NZ - 1) ((j + 1) % NTheta),
   outerVertex (NZ - 1) j, innerVertex (NZ - 1) ((j + 1) % NTheta),
   outerVertex (NZ - 1) ((j + 1) % NTheta)]

/-- The index buffer in closed form. -/
def meshIndices : List Nat :=
  (List.range (NZ - 1)).flatMap (fun i => (List.range NTheta).flatMap (lateralQuad i))
    ++ (List.range NTheta).flatMap capQuad

/-- The triangles of an index buffer: three consecutive entries each, the
grouping of the loop `i += 3` of line 184. -/
def triangles : List Nat → List (Nat × Nat × Nat)
  | a :: b :: c :: rest => (a, b, c) :: triangles rest
  | _ => []

/-- The four triangles of the quad `(i, j)`: two outer, two inner. -/
def lateralTris (i j : Nat) : List (Nat × Nat × Nat) :=
  [(outerVertex i j, outerVertex (i + 1) j, outerVertex (i + 1) ((j + 1) % NTheta)),
   (outerVertex i j, outerVertex (i + 1) ((j + 1) % NTheta), outerVertex i ((j + 1) % NTheta)),
   (innerVertex i j, innerVertex (i + 1) ((j + 1) % NTheta), innerVertex (i + 1) j),
   (innerVertex i j, innerVertex i ((j + 1) % NTheta), innerVertex (i + 1) ((j + 1) % NTheta))]

/-- The four cap triangles at angular step `j`: two on sample 0, two on
sample `NZ - 1`. -/
def capTris (j : Nat) : List (Nat × Nat × Nat) :=
  [(outerVertex 0 j, innerVertex 0 ((j + 1) % NTheta), innerVertex 0 j),
   (outerVertex 0 j, outerVertex 0 ((j + 1) % NTheta), innerVertex 0 ((j + 1) % NTheta)),
   (outerVertex (NZ - 1) j, innerVertex (NZ - 1) j, innerVertex (NZ - 1) ((j + 1) % NTheta)),
   (outerVertex (NZ - 1) j, innerVertex (NZ - 1) ((j + 1) % NTheta),
     outerVertex (NZ - 1) ((j + 1) % NTheta))]

/-- The triangles of the mesh in closed form. -/
def meshTriangles : List (Nat × Nat × Nat) :=
  (List.range (NZ - 1)).flatMap (fun i => (List.range NTheta).flatMap (lateralTris i))
    ++ (List.range NTheta).flatMap capTris

/-- The directed edges `p -> q`, `q -> r`, `r -> p` of the triangle
`(p, q, r)`. -/
def dirEdges (t : Nat × Nat × Nat) : List (Nat × Nat) :=
  [(t.1, t.2.1), (t.2.1, t.2.2), (t.2.2, t.1)]

/-- The number of triangles of `ts` in which the directed edge `a -> b`
occurs. -/
def dirEdgeCount (ts : List (Nat × Nat × Nat)) (a b : Nat) : Nat :=
  ts.countP (fun t => decide ((a, b) ∈ dirEdges t))

/-- The number of triangles of `ts` in which the undirected edge `{a, b}`
occurs. -/
def edgeCount (ts : List (Nat × Nat × Nat)) (a b : Nat) : Nat :=
  ts.countP (fun t => decide ((a, b) ∈ dirEdges t ∨ (b, a) ∈ dirEdges t))

/-- The twelve directed edges of the triangles of the quad `(i, j)`. -/
def quadEdges (i j : Nat) : List (Nat × Nat) := (lateralTris i j).flatMap dirEdges

/-- The twelve directed edges of the cap triangles at angular step `j`. -/
def capEdges (j : Nat) : List (Nat × Nat) := (capTris j).flatMap dirEdges

/-- Every directed edge of the mesh, once per triangle it occurs in. -/
def meshEdges : List (Nat × Nat) := meshTriangles.flatMap dirEdges

/-- The component of a vector along the radial direction
`(cos theta_j, 0, sin theta_j)` of angular sample `j`. -/
def radialComponent (M : JSMath K) (j : Nat) (n : K × K × K) : K :=
  n.1 * M.cos (sampleTheta M j) + n.2.2 * M.sin (sampleTheta M j)

/-- The expression `sin theta_j' * cos theta_j - cos theta_j' * sin theta_j`,
which is the sine of the angular step from sample `j` to sample `j'`. -/
def sinStep (M : JSMath K) (j j' : Nat) : K :=
  M.sin (sampleTheta M j') * M.cos (sampleTheta M j)
    - M.cos (sampleTheta M j') * M.sin (sampleTheta M j)

end ClosedForms

section Document

variable {K : Type} [LinearOrderedField K]

/-- The text made of the given lines, each followed by a newline. -/
def unlines : List String → String
  | [] => ""
  | l :: ls => l ++ "\n" ++ unlines ls

/-- The line `vertex x y z` of a facet record, without its newline. -/
def vertexLine (fmt : K → String) (v : K × K × K) : String :=
  "      vertex " ++ fmt v.1 ++ " " ++ fmt v.2.1 ++ " " ++ fmt v.2.2

/-- The line `facet normal nx ny nz` of the facet with corners `a`, `b`, `c`,
without its newline. -/
def normalLine (fmt : K → String) (M : JSMath K) (a b c : K × K × K) : String :=
  "  facet normal " ++ fmt ((triNormal a b c).1 / normalLen M (triNormal a b c)) ++ " "
    ++ fmt ((triNormal a b c).2.1 / normalLen M (triNormal a b c)) ++ " "
    ++ fmt ((triNormal a b c).2.2 / normalLen M (triNormal a b c))

/-- The seven lines of the facet record of a triangle with corners `a`, `b`,
`c`: facet normal, outer loop, three vertex lines, endloop, endfacet. -/
def facetLines (fmt : K → String) (M : JSMath K) (a b c : K × K × K) : List String :=
  [normalLine fmt M a b c, "    outer loop", vertexLine fmt a, vertexLine fmt b,
   vertexLine fmt c, "    endloop", "  endfacet"]

/-- The position stored at vertex index `v` of a scalar buffer. -/
def positionAt (vertices : List K) (v : Nat) : K × K × K :=
  (vertices.getD (v * 3) 0, vertices.getD (v * 3 + 1) 0, vertices.getD (v * 3 + 2) 0)

/-- The facet record of triangle `k` of the index buffer: its corners are the
positions stored at the vertex indices `indices[3k]`, `indices[3k+1]`,
`indices[3k+2]`, in this order. -/
def facetLinesAt (fmt : K → String) (M : JSMath K) (vertices : List K) (indices : List Nat)
    (k : Nat) : List String :=
  facetLines fmt M (positionAt vertices (indices.getD (3 * k) 0))
    (positionAt vertices (indices.getD (3 * k + 1) 0))
    (positionAt vertices (indices.getD (3 * k + 2) 0))

/-- The lines of the document as the specification describes it: the line
`solid cv_boot`, one facet record per triangle in triangle order, the line
`endsolid cv_boot`. -/
def stlLines (fmt : K → String) (M : JSMath K) (vertices : List K) (indices : List Nat) :
    List String :=
  ["solid cv_boot"]
    ++ (List.range (indices.length / 3)).flatMap (facetLinesAt fmt M vertices indices)
    ++ ["endsolid cv_boot"]

end Document

section Variants

variable {K : Type} [LinearOrderedField K]

/-- The radius computation of lines 72-110 with the degenerate-case guard of
lines 112-114 removed: the pair `(rOut, rIn)` as it stands before line 112. -/
def sampleRadiiNoGuard (M : JSMath K) (p : Params K) (i : Nat) : K × K :=
  let rOut := rOutRule M p i
  let rIn := rInRule p i rOut
  (rOut, rIn)

/-- The sum of squares `nx * nx + ny * ny + nz * nz` under the square root of
line 198. -/
def normSq (n : K × K × K) : K := n.1 * n.1 + n.2.1 * n.2.1 + n.2.2 * n.2.2

/-- The normal `(nx / len, ny / len, nz / len)` that line 200 formats for the
triangle with corners `a`, `b`, `c`. -/
def emittedNormal (M : JSMath K) (a b c : K × K × K) : K × K × K :=
  ((triNormal a b c).1 / normalLen M (triNormal a b c),
   (triNormal a b c).2.1 / normalLen M (triNormal a b c),
   (triNormal a b c).2.2 / normalLen M (triNormal a b c))

/-- The difference `p - q` of two positions, coordinate by coordinate. -/
def vecSub (p q : K × K × K) : K × K × K := (p.1 - q.1, p.2.1 - q.2.1, p.2.2 - q.2.2)

/-- The cross product `u x v` of two vectors, written from its textbook
formula and not from the code. -/
def crossProduct (u v : K × K × K) : K × K × K :=
  (u.2.1 * v.2.2 - u.2.2 * v.2.1, u.2.2 * v.1 - u.1 * v.2.2, u.1 * v.2.1 - u.2.1 * v.1)

/-- The divisor the specification describes for a vector `n`: its length
`sqrt (normSq n)`, with 1 substituted when that length is 0. -/
def specLen (sqrt : K → K) (n : K × K × K) : K :=
  if sqrt (normSq n) = 0 then 1 else sqrt (normSq n)

/-- The facet normal the specification describes for the triangle with corners
`a`, `b`, `c`: the cross product of the edges `b - a` and `c - a`, in that
order, divided by `specLen`. -/
def specNormal (sqrt : K → K) (a b c : K × K × K) : K × K × K :=
  ((crossProduct (vecSub b a) (vecSub c a)).1
      / specLen sqrt (crossProduct (vecSub b a) (vecSub c a)),
   (crossProduct (vecSub b a) (vecSub c a)).2.1
      / specLen sqrt (crossProduct (vecSub b a) (vecSub c a)),
   (crossProduct (vecSub b a) (vecSub c a)).2.2
      / specLen sqrt (crossProduct (vecSub b a) (vecSub c a)))

end Variants

/-! ### Double precision

The program runs in IEEE 754 binary64 arithmetic. The definitions above read
its arithmetic exactly; the definitions below read it as the program computes
it, every operation rounded to the nearest double, ties to even, with signed
zeros, infinities and NaN. -/

/-- A JavaScript number: NaN, an infinity with its sign, or the finite value
`(-1)^neg * m * 2^e`. The operations below return finite values in the form of
the binary64 encoding: `m < 2^53`, `-1074 <= e <= 971`, and `2^52 <= m` unless
`e = -1074`; a zero is `fin neg 0 (-1074)`. -/
inductive JSNum where
  | nan : JSNum
  | inf (neg : Bool) : JSNum
  | fin (neg : Bool) (m : Nat) (e : Int) : JSNum
deriving DecidableEq

namespace JSNum

/-- The number of binary digits of `n < 2^64`. -/
def bitLen64 (n : Nat) : Nat :=
  let a5 := if n < 2 ^ 32 then 0 else 32
  let n5 := n >>> a5
  let a4 := if n5 < 2 ^ 16 then 0 else 16
  let n4 := n5 >>> a4
  let a3 := if n4 < 2 ^ 8 then 0 else 8
  let n3 := n4 >>> a3
  let a2 := if n3 < 2 ^ 4 then 0 else 4
  let n2 := n3 >>> a2
  let a1 := if n2 < 2 ^ 2 then 0 else 2
  let n1 := n2 >>> a1
  let a0 := if n1 < 2 then 0 else 1
  let n0 := n1 >>> a0
  a5 + a4 + a3 + a2 + a1 + a0 + (if n0 = 0 then 0 else 1)

/-- The number of binary digits of `n`, 64 digits at a time. -/
def bitLenAux : Nat → Nat → Nat
  | 0, _ => 0
  | fuel + 1, n => if n < 2 ^ 64 then bitLen64 n else bitLenAux fuel (n >>> 64) + 64

/-- The number of binary digits of `n`: 0 for 0, and `k + 1` when
`2^k <= n < 2^(k+1)`. -/
def bitLen (n : Nat) : Nat := bitLenAux n n

/-- The finite value `m * 2^e` with its sign, or the infinity when the
exponent is beyond the largest finite double. -/
def pack (neg : Bool) (m : Nat) (e : Int) : JSNum :=
  if e > 971 then inf neg else fin neg m e

/-- The double nearest to `(-1)^neg * m * 2^e`, ties to even: a significand of
at most 53 digits, the exponent not below -1074 (gradual underflow), overflow
to infinity. -/
def roundDouble (neg : Bool) (m : Nat) (e : Int) : JSNum :=
  if m = 0 then fin neg 0 (-1074)
  else
    let bits : Int := (bitLen m : Int)
    let E : Int := max (e + bits - 53) (-1074)
    if E ≤ e then pack neg (m <<< (e - E).toNat) E
    else
      let s := (E - e).toNat
      let q := m >>> s
      let r := m % 2 ^ s
      let half := 2 ^ (s - 1)
      let q' := if r > half ∨ (r = half ∧ q % 2 = 1) then q + 1 else q
      if q' = 2 ^ 53 then pack neg (2 ^ 52) (E + 1) else pack neg q' E

/-- The double nearest to `(-1)^neg * (n / d) * 2^e` for `d > 0`: the quotient
is taken with more than 64 digits and a last digit that records a non-zero
remainder, then rounded once. -/
def roundQuot (neg : Bool) (n d : Nat) (e : Int) : JSNum :=
  let k := bitLen d + 64
  let q := (n <<< k) / d
  let r := (n <<< k) % d
  roundDouble neg (2 * q + (if r = 0 then 0 else 1)) (e - (k : Int) - 1)

/-- The double of a natural number, as of an integer literal or loop counter. -/
def ofNat (n : Nat) : JSNum := roundDouble false n 0

/-- The double nearest to the fraction `n / d`, as of a decimal literal:
`ofRatio 95 100` is the number `0.95`. -/
def ofRatio (n d : Nat) : JSNum := roundQuot false n d 0

/-- The integer `(-1)^neg * m`. -/
def signed (neg : Bool) (m : Nat) : Int := if neg then -(m : Int) else (m : Int)

/-- Unary minus. -/
def negate : JSNum → JSNum
  | nan => nan
  | inf s => inf (!s)
  | fin s m e => fin (!s) m e

/-- The operator `+`: the exact sum rounded; an exact zero sum is `+0` unless
both terms are negative zeros. -/
def add : JSNum → JSNum → JSNum
  | nan, _ => nan
  | _, nan => nan
  | inf a, inf b => if a = b then inf a else nan
  | inf a, fin _ _ _ => inf a
  | fin _ _ _, inf b => inf b
  | fin sx mx ex, fin sy my ey =>
    let e := min ex ey
    let s := signed sx (mx <<< (ex - e).toNat) + signed sy (my <<< (ey - e).toNat)
    if s = 0 then fin (sx && sy) 0 (-1074) else roundDouble (decide (s < 0)) s.natAbs e

/-- The operator `-`. -/
def sub (x y : JSNum) : JSNum := add x (negate y)

/-- The operator `*`. -/
def mul : JSNum → JSNum → JSNum
  | nan, _ => nan
  | _, nan => nan
  | inf a, inf b => inf (xor a b)
  | inf a, fin s m _ => if m = 0 then nan else inf (xor a s)
  | fin s m _, inf b => if m = 0 then nan else inf (xor s b)
  | fin sx mx ex, fin sy my ey => roundDouble (xor sx sy) (mx * my) (ex + ey)

/-- The operator `/`: a non-zero number over a zero is an infinity, a zero
over a zero is NaN. -/
def div : JSNum → JSNum → JSNum
  | nan, _ => nan
  | _, nan => nan
  | inf _, inf _ => nan
  | inf a, fin s _ _ => inf (xor a s)
  | fin s _ _, inf b => fin (xor s b) 0 (-1074)
  | fin sx mx ex, fin sy my ey =>
    if my = 0 then (if mx = 0 then nan else inf (xor sx sy))
    else if mx = 0 then fin (xor sx sy) 0 (-1074)
    else roundQuot (xor sx sy) mx my (ex - ey)

/-- The operator `<`: false when an operand is NaN. -/
def lt : JSNum → JSNum → Bool
  | nan, _ => false
  | _, nan => false
  | inf a, inf b => a && !b
  | inf a, fin _ _ _ => a
  | fin _ _ _, inf b => !b
  | fin sx mx ex, fin sy my ey =>
    let e := min ex ey
    decide (signed sx (mx <<< (ex - e).toNat) < signed sy (my <<< (ey - e).toNat))

/-- The operator `<=`: false when an operand is NaN; `x >= y` is `le y x`. -/
def le : JSNum → JSNum → Bool
  | nan, _ => false
  | _, nan => false
  | inf a, inf b => a || !b
  | inf a, fin _ _ _ => a
  | fin _ _ _, inf b => !b
  | fin sx mx ex, fin sy my ey =>
    let e := min ex ey
    decide (signed sx (mx <<< (ex - e).toNat) ≤ signed sy (my <<< (ey - e).toNat))

/-- The function `Math.max` of two numbers: NaN when an operand is NaN, and
`+0` is larger than `-0`. -/
def max : JSNum → JSNum → JSNum
  | nan, _ => nan
  | _, nan => nan
  | x, y =>
    if lt x y then y else if lt y x then x
    else match x, y with
      | fin sx 0 _, fin sy 0 _ => fin (sx && sy) 0 (-1074)
      | _, _ => x

/-- The function `Math.min` of two numbers: NaN when an operand is NaN, and
`-0` is smaller than `+0`. -/
def min : JSNum → JSNum → JSNum
  | nan, _ => nan
  | _, nan => nan
  | x, y =>
    if lt x y then x else if lt y x then y
    else match x, y with
      | fin sx 0 _, fin sy 0 _ => fin (sx || sy) 0 (-1074)
      | _, _ => x

/-- The expression `x || 1`: 1 when `x` is NaN or a zero, `x` otherwise. -/
def orOne : JSNum → JSNum
  | nan => ofNat 1
  | inf s => inf s
  | fin s m e => if m = 0 then ofNat 1 else fin s m e

end JSNum

section DoubleProfile

open JSNum

/-- What `Math.sin` and `Math.sqrt` return for the finite non-zero arguments,
where the language leaves the approximation to the implementation. -/
structure JSMathD where
  sinFinite : JSNum → JSNum
  sqrtFinite : JSNum → JSNum

/-- The function `Math.sin`: NaN for NaN and the infinities, the argument
itself for a zero. -/
def jsSin (M : JSMathD) : JSNum → JSNum
  | nan => nan
  | inf _ => nan
  | fin s m e => if m = 0 then fin s m e else M.sinFinite (fin s m e)

/-- The function `Math.sqrt`: NaN for NaN and the negative numbers, the
argument itself for a zero and for `+Infinity`. -/
def jsSqrt (M : JSMathD) : JSNum → JSNum
  | nan => nan
  | inf s => if s then nan else inf false
  | fin s m e => if m = 0 then fin s m e else if s then nan else M.sqrtFinite (fin s m e)

/-- The constant `Math.PI`, the double `3.141592653589793`. -/
def jsPI : JSNum := ofRatio 3141592653589793 (10 ^ 15)

/-- `innerSmallR` (lines 43, 45) in doubles. -/
def innerSmallRD (p : Params JSNum) : JSNum := div (mul p.shaftD p.stretchSmall) (ofNat 2)

/-- `innerBigR` (lines 44, 46) in doubles. -/
def innerBigRD (p : Params JSNum) : JSNum := div (mul p.cupD p.stretchBig) (ofNat 2)

/-- `LMid = bootLength - flatSmallLen - flatBigLen` (line 52) in doubles. -/
def LMidD (p : Params JSNum) : JSNum := sub (sub p.bootLength p.flatSmallLen) p.flatBigLen

/-- `z = bootLength * i / (NZ - 1)` (line 59) in doubles. -/
def sampleZD (p : Params JSNum) (i : Nat) : JSNum :=
  div (mul p.bootLength (ofNat i)) (ofNat (NZ - 1))

/-- `inSmallFlat = z <= flatSmallLen` (line 69) in doubles. -/
def inSmallFlatD (p : Params JSNum) (i : Nat) : Bool := le (sampleZD p i) p.flatSmallLen

/-- `inBigFlat = z >= bootLength - flatBigLen` (line 70) in doubles. -/
def inBigFlatD (p : Params JSNum) (i : Nat) : Bool :=
  le (sub p.bootLength p.flatBigLen) (sampleZD p i)

/-- The normalized position `t` (lines 60-67) in doubles. -/
def sampleTD (p : Params JSNum) (i : Nat) : JSNum :=
  let z := sampleZD p i
  if le z p.flatSmallLen then ofNat 0
  else if le (sub p.bootLength p.flatBigLen) z then ofNat 1
  else div (sub z p.flatSmallLen) (LMidD p)

/-- The pair `(rOut, rIn)` of lines 72-114 in doubles. -/
def sampleRadiiD (M : JSMathD) (p : Params JSNum) (i : Nat) : JSNum × JSNum :=
  let innerSmallR := innerSmallRD p
  let innerBigR := innerBigRD p
  let rSmallOuter := add innerSmallR p.wallThickness
  let rBigOuter := add innerBigR p.wallThickness
  let z := sampleZD p i
  let t := sampleTD p i
  let inSmallFlat := inSmallFlatD p i
  let inBigFlat := inBigFlatD p i
  let rOut :=
    if inSmallFlat then
      if le z p.shoulderWidth then add rSmallOuter p.shoulderHeight
      else if le (sub p.flatSmallLen p.shoulderWidth) z && le z p.flatSmallLen then
        add rSmallOuter p.shoulderHeight
      else rSmallOuter
    else if inBigFlat then
      if le (sub p.bootLength p.flatBigLen) z
          && le z (add (sub p.bootLength p.flatBigLen) p.shoulderWidth) then
        add (add rBigOuter p.shoulderHeight) (ofRatio 15 10)
      else if le (sub p.bootLength p.shoulderWidth) z then
        add (add rBigOuter p.shoulderHeight) (ofRatio 15 10)
      else add rBigOuter (ofRatio 15 10)
    else
      let coreR := add rSmallOuter (mul (sub rBigOuter rSmallOuter) t)
      let ribPhase := mul (mul (mul (ofNat 2) jsPI) p.nRibs) t
      let rOutRaw := add coreR (mul p.ribAmp (jsSin M ribPhase))
      JSNum.max rOutRaw (add innerSmallR p.wallThickness)
  let rIn :=
    if inSmallFlat then innerSmallR
    else if inBigFlat then innerBigR
    else
      let rInCandidate := sub rOut p.wallThickness
      let rIn := JSNum.min (JSNum.max rInCandidate innerSmallR) innerBigR
      let firstRibZone := div (ofNat 1) p.nRibs
      if lt t firstRibZone then innerSmallR else rIn
  let rOut := if lt rOut (add rIn p.wallThickness) then add rIn p.wallThickness else rOut
  (rOut, rIn)

/-- The cross product of lines 193-197 in doubles. -/
def triNormalD (a b c : JSNum × JSNum × JSNum) : JSNum × JSNum × JSNum :=
  let ux := sub b.1 a.1
  let uy := sub b.2.1 a.2.1
  let uz := sub b.2.2 a.2.2
  let vx := sub c.1 a.1
  let vy := sub c.2.1 a.2.1
  let vz := sub c.2.2 a.2.2
  let nx := sub (mul uy vz) (mul uz vy)
  let ny := sub (mul uz vx) (mul ux vz)
  let nz := sub (mul ux vy) (mul uy vx)
  (nx, ny, nz)

/-- The normal `(nx / len, ny / len, nz / len)` of lines 198-200 in doubles. -/
def emittedNormalD (M : JSMathD) (a b c : JSNum × JSNum × JSNum) : JSNum × JSNum × JSNum :=
  let n := triNormalD a b c
  let len := orOne (jsSqrt M (add (add (mul n.1 n.1) (mul n.2.1 n.2.1)) (mul n.2.2 n.2.2)))
  (div n.1 len, div n.2.1 len, div n.2.2 len)

/-- The default parameters with the two flat lengths
`flatSmallLen = 3.0150753768844205` and `flatBigLen = 116.98492462311557`,
whose sum is 120 in doubles and slightly less than 120 exactly, and with the
given rib count and rib amplitude. -/
def roundingParams (nRibs ribAmp : Nat) : Params JSNum :=
  { bootLength := ofNat 120, shaftD := ofNat 10, cupD := ofNat 95,
    stretchSmall := ofRatio 95 100, stretchBig := ofRatio 99 100,
    wallThickness := ofRatio 35 10, ribAmp := ofNat ribAmp, nRibs := ofNat nRibs,
    shoulderHeight := ofNat 2, shoulderWidth := ofNat 3,
    flatSmallLen := ofRatio 30150753768844205 (10 ^ 16),
    flatBigLen := ofRatio 11698492462311557 (10 ^ 14) }

end DoubleProfile

section Inputs

variable {K : Type} [LinearOrderedField K]

/-- The default parameter record of lines 5-18. -/
def defaultParams (K : Type) [LinearOrderedField K] : Params K :=
  { bootLength := 120, shaftD := 10, cupD := 95, stretchSmall := 0.95, stretchBig := 0.99,
    wallThickness := 3.5, ribAmp := 7, nRibs := 8, shoulderHeight := 2, shoulderWidth := 3,
    flatSmallLen := 12, flatBigLen := 20 }

/-- The `min` and `max` attributes of the twelve range inputs (lines 405-580):
the parameter records the sliders can produce. -/
def InUIRanges (p : Params K) : Prop :=
  (80 ≤ p.bootLength ∧ p.bootLength ≤ 200) ∧
  (5 ≤ p.shaftD ∧ p.shaftD ≤ 30) ∧
  (50 ≤ p.cupD ∧ p.cupD ≤ 150) ∧
  (0.85 ≤ p.stretchSmall ∧ p.stretchSmall ≤ 1.0) ∧
  (0.85 ≤ p.stretchBig ∧ p.stretchBig ≤ 1.0) ∧
  (1 ≤ p.wallThickness ∧ p.wallThickness ≤ 8) ∧
  (0 ≤ p.ribAmp ∧ p.ribAmp ≤ 15) ∧
  (1 ≤ p.nRibs ∧ p.nRibs ≤ 20) ∧
  (0 ≤ p.shoulderHeight ∧ p.shoulderHeight ≤ 5) ∧
  (1 ≤ p.shoulderWidth ∧ p.shoulderWidth ≤ 8) ∧
  (5 ≤ p.flatSmallLen ∧ p.flatSmallLen ≤ 30) ∧
  (10 ≤ p.flatBigLen ∧ p.flatBigLen ≤ 40)

/-- A parameter record with a zero-length midsection:
`flatSmallLen + flatBigLen = bootLength`, `nRibs = 1`, `ribAmp = 0`. -/
def degenerateParams : Params ℚ :=
  { bootLength := 120, shaftD := 10, cupD := 95, stretchSmall := 0.95, stretchBig := 0.99,
    wallThickness := 3.5, ribAmp := 0, nRibs := 1, shoulderHeight := 2, shoulderWidth := 3,
    flatSmallLen := 50, flatBigLen := 70 }

/-- A stand-in `Math` object over `ℚ` for evaluating facts that do not depend
on the trigonometric functions: they are constant here. -/
def stubMath : JSMath ℚ := { sin := fun _ => 0, cos := fun _ => 1, PI := 3, sqrt := fun x => x }

end Inputs

end CVBoot

/-! ## Theorems -/

namespace CVBoot

section ProfileFacts

variable {K : Type} [LinearOrderedField K]

theorem defaultParams_inUIRanges : InUIRanges (defaultParams K) := by
  simp only [InUIRanges, defaultParams]
  norm_num

theorem sampleZ_zero (p : Params K) : sampleZ p 0 = 0 := by
  simp [sampleZ]

theorem sampleZ_last (p : Params K) : sampleZ p (NZ - 1) = p.bootLength := by
  simp only [sampleZ, NZ]
  norm_num

/-- In the midsection the divisor `LMid` is positive and `t` lies strictly
between 0 and 1. -/
theorem midsection_facts (p : Params K) (i : Nat) (h : inMidsection p i) :
    0 < LMid p ∧ 0 < sampleT p i ∧ sampleT p i < 1 := by
  obtain ⟨h1, h2⟩ := h
  simp only [inSmallFlat, inBigFlat, not_le, ge_iff_le] at h1 h2
  have hL : 0 < LMid p := by simp only [LMid]; linarith
  refine ⟨hL, ?_, ?_⟩
  · simp only [sampleT, ge_iff_le]
    rw [if_neg (not_le.mpr h1), if_neg (not_le.mpr h2)]
    exact div_pos (by linarith) hL
  · simp only [sampleT, ge_iff_le]
    rw [if_neg (not_le.mpr h1), if_neg (not_le.mpr h2), div_lt_one hL]
    simp only [LMid]; linarith

theorem checkedDiv_of_ne (a : K) {b : K} (h : b ≠ 0) : checkedDiv a b = some (a / b) := by
  simp [checkedDiv, h]

/-- The checked computation returns the radii of `sampleRadii` whenever the
sample lies in a flat zone or `nRibs` is not zero. -/
theorem sampleRadiiChecked_eq (M : JSMath K) (p : Params K) (i : Nat)
    (h : p.nRibs ≠ 0 ∨ inSmallFlat p i ∨ inBigFlat p i) :
    sampleRadiiChecked M p i = some (sampleRadii M p i) := by
  have h199 : ((NZ : K) - 1) ≠ 0 := by simp only [NZ]; norm_num
  simp only [sampleRadiiChecked, checkedDiv_of_ne _ h199, Option.bind_eq_bind, Option.some_bind]
  by_cases hs : inSmallFlat p i
  · have hs' := hs
    simp only [inSmallFlat, sampleZ] at hs'
    simp [sampleRadii, rOutRule, rInRule, sampleT, hs, hs', sampleZ]
  · by_cases hb : inBigFlat p i
    · have hs' := hs
      have hb' := hb
      simp only [inSmallFlat, sampleZ] at hs'
      simp only [inBigFlat, sampleZ] at hb'
      simp [sampleRadii, rOutRule, rInRule, sampleT, hs, hs', hb, hb', sampleZ]
    · have hn : p.nRibs ≠ 0 := by tauto
      have hL : LMid p ≠ 0 := (midsection_facts p i ⟨hs, hb⟩).1.ne.symm
      have hs' := hs
      have hb' := hb
      simp only [inSmallFlat, sampleZ] at hs'
      simp only [inBigFlat, sampleZ] at hb'
      simp only [checkedDiv_of_ne _ hL, checkedDiv_of_ne _ hn, if_neg hs', if_neg hb',
        Option.some_bind, sampleRadii, rOutRule, rInRule, sampleT, if_neg hs, if_neg hb, sampleZ,
        hn, false_or]
      split_ifs <;> simp_all

end ProfileFacts

section LoopFacts

variable {K : Type} [LinearOrderedField K]

theorem foldl_append_flatMap {α β : Type} (f : α → List β) (l : List α) (init : List β) :
    l.foldl (fun acc x => acc ++ f x) init = init ++ l.flatMap f := by
  induction l generalizing init with
  | nil => simp
  | cons x xs ih => simp [ih, List.append_assoc]

theorem length_flatMap_range {α : Type} (f : Nat → List α) (c : Nat)
    (hc : ∀ k, (f k).length = c) (n : Nat) : ((List.range n).flatMap f).length = n * c := by
  induction n with
  | zero => simp
  | succ n ih =>
    rw [List.range_succ, List.flatMap_append, List.length_append, ih]
    simp [hc, Nat.succ_mul]

theorem getElem?_flatMap_range {α : Type} (f : Nat → List α) (c : Nat)
    (hc : ∀ k, (f k).length = c) (n k r : Nat) (hk : k < n) (hr : r < c) :
    ((List.range n).flatMap f)[k * c + r]? = (f k)[r]? := by
  induction n with
  | zero => omega
  | succ n ih =>
    rw [List.range_succ, List.flatMap_append]
    have hlen := length_flatMap_range f c hc n
    by_cases hkn : k < n
    · have hlt : k * c + r < n * c := by
        have h1 : (k + 1) * c ≤ n * c := Nat.mul_le_mul_right c hkn
        rw [Nat.succ_mul] at h1
        omega
      rw [List.getElem?_append_left (by rw [hlen]; exact hlt)]
      exact ih hkn
    · have hkeq : k = n := by omega
      subst hkeq
      rw [List.getElem?_append_right (by rw [hlen]; omega), hlen]
      simp

theorem ringScalars_length (M : JSMath K) (p : Params K) (z rOut rIn : K) (j : Nat) :
    (ringScalars M p z rOut rIn j).length = 6 := rfl

theorem rowScalars_length (M : JSMath K) (p : Params K) (i : Nat) :
    (rowScalars M p i).length = NTheta * 6 :=
  length_flatMap_range _ 6 (ringScalars_length M p _ _ _) NTheta

/-- The angular loop in closed form. -/
theorem ring_foldl (M : JSMath K) (p : Params K) (z rOut rIn : K) (n : Nat)
    (vs : List K) :
    (List.range n).foldl (ringStep M p z rOut rIn)
        { vertices := vs, outerRow := [], innerRow := [] } =
      { vertices := vs ++ (List.range n).flatMap (ringScalars M p z rOut rIn)
        outerRow := (List.range n).map (fun j => vs.length / 3 + 2 * j)
        innerRow := (List.range n).map (fun j => vs.length / 3 + 2 * j + 1) } := by
  induction n with
  | zero => simp
  | succ n ih =>
    rw [List.range_succ, List.foldl_append, ih]
    have hlen := length_flatMap_range (ringScalars M p z rOut rIn) 6
      (ringScalars_length M p z rOut rIn) n
    simp only [List.foldl_cons, List.foldl_nil, ringStep, List.flatMap_append, List.map_append,
      List.length_append, hlen, List.flatMap_cons, List.flatMap_nil, List.map_cons, List.map_nil,
      List.append_nil, List.length_cons, List.length_nil, ringScalars, sampleTheta,
      List.append_assoc]
    have e1 : (vs.length + n * 6) / 3 = vs.length / 3 + 2 * n := by omega
    have e2 : (vs.length + (n * 6 + (0 + 1 + 1 + 1))) / 3 = vs.length / 3 + 2 * n + 1 := by
      omega
    rw [e2]
    simp [e1]

/-- The axial loop in closed form. -/
theorem sample_foldl (M : JSMath K) (p : Params K) (n : Nat) :
    (List.range n).foldl (sampleStep M p) { vertices := [], outerIdx := [], innerIdx := [] } =
      { vertices := (List.range n).flatMap (rowScalars M p)
        outerIdx := (List.range n).map
          (fun i => (List.range NTheta).map (fun j => outerVertex i j))
        innerIdx := (List.range n).map
          (fun i => (List.range NTheta).map (fun j => innerVertex i j)) } := by
  induction n with
  | zero => simp
  | succ n ih =>
    rw [List.range_succ, List.foldl_append, ih]
    have hlen := length_flatMap_range (rowScalars M p) (NTheta * 6) (rowScalars_length M p) n
    simp only [List.foldl_cons, List.foldl_nil, sampleStep, ring_foldl, hlen,
      List.flatMap_append, List.map_append, List.flatMap_cons, List.flatMap_nil, List.map_cons,
      List.map_nil, List.append_nil, rowScalars]
    have e : ∀ j, n * (NTheta * 6) / 3 + 2 * j = outerVertex n j := by
      intro j; simp only [outerVertex, NTheta]; omega
    have e2 : ∀ j, n * (NTheta * 6) / 3 + 2 * j + 1 = innerVertex n j := by
      intro j; simp only [innerVertex, NTheta]; omega
    simp only [e]
    simp [innerVertex, outerVertex]

theorem buildVertices_eq (M : JSMath K) (p : Params K) :
    buildVertices M p =
      { vertices := (List.range NZ).flatMap (rowScalars M p)
        outerIdx := outerTable
        innerIdx := innerTable } :=
  sample_foldl M p NZ

theorem vertices_length (M : JSMath K) (p : Params K) :
    (generateGeometry M p).vertices.length = 96000 := by
  simp only [generateGeometry, buildVertices_eq]
  rw [length_flatMap_range (rowScalars M p) (NTheta * 6) (rowScalars_length M p) NZ]
  rfl

theorem idxAt_outerTable (i j : Nat) (hi : i < NZ) (hj : j < NTheta) :
    idxAt outerTable i j = outerVertex i j := by
  simp [idxAt, outerTable, List.getD_eq_getElem?_getD, List.getElem?_map,
    List.getElem?_range hi, List.getElem?_range hj]

theorem idxAt_innerTable (i j : Nat) (hi : i < NZ) (hj : j < NTheta) :
    idxAt innerTable i j = innerVertex i j := by
  simp [idxAt, innerTable, List.getD_eq_getElem?_getD, List.getElem?_map,
    List.getElem?_range hi, List.getElem?_range hj]

end LoopFacts

section IndexFacts

variable {K : Type} [LinearOrderedField K]

theorem flatMap_congr_mem {α β : Type} (f g : α → List β) (l : List α)
    (h : ∀ x ∈ l, f x = g x) : l.flatMap f = l.flatMap g := by
  induction l with
  | nil => rfl
  | cons x xs ih =>
    simp only [List.flatMap_cons]
    rw [h x (List.mem_cons_self x xs), ih (fun y hy => h y (List.mem_cons_of_mem x hy))]

theorem lateralStep_eq (i j : Nat) (hi : i < NZ - 1) (hj : j < NTheta) (acc : List Nat) :
    lateralStep outerTable innerTable i acc j = acc ++ lateralQuad i j := by
  have hjn : (j + 1) % NTheta < NTheta := Nat.mod_lt _ (by decide)
  have hi0 : i < NZ := by simp only [NZ] at hi ⊢; omega
  have hi1 : i + 1 < NZ := by simp only [NZ] at hi ⊢; omega
  simp only [lateralStep, lateralQuad, idxAt_outerTable _ _ hi0 hj, idxAt_outerTable _ _ hi0 hjn,
    idxAt_outerTable _ _ hi1 hj, idxAt_outerTable _ _ hi1 hjn, idxAt_innerTable _ _ hi0 hj,
    idxAt_innerTable _ _ hi0 hjn, idxAt_innerTable _ _ hi1 hj, idxAt_innerTable _ _ hi1 hjn,
    List.append_assoc, List.cons_append, List.nil_append]

theorem capStep_eq (j : Nat) (hj : j < NTheta) (acc : List Nat) :
    capStep outerTable innerTable acc j = acc ++ capQuad j := by
  have hjn : (j + 1) % NTheta < NTheta := Nat.mod_lt _ (by decide)
  have h0 : 0 < NZ := by decide
  have h1 : NZ - 1 < NZ := by decide
  simp only [capStep, capQuad, idxAt_outerTable _ _ h0 hj, idxAt_outerTable _ _ h0 hjn,
    idxAt_outerTable _ _ h1 hj, idxAt_outerTable _ _ h1 hjn, idxAt_innerTable _ _ h0 hj,
    idxAt_innerTable _ _ h0 hjn, idxAt_innerTable _ _ h1 hj, idxAt_innerTable _ _ h1 hjn,
    List.append_assoc, List.cons_append, List.nil_append]

theorem foldl_congr_mem {α β : Type} (f g : β → α → β) (l : List α)
    (h : ∀ b, ∀ x ∈ l, f b x = g b x) (init : β) : l.foldl f init = l.foldl g init := by
  induction l generalizing init with
  | nil => rfl
  | cons x xs ih =>
    simp only [List.foldl_cons]
    rw [h init x (List.mem_cons_self x xs)]
    exact ih (fun b y hy => h b y (List.mem_cons_of_mem x hy)) _

theorem buildIndices_eq : buildIndices outerTable innerTable = meshIndices := by
  simp only [buildIndices, meshIndices]
  have inner : ∀ acc, ∀ i ∈ List.range (NZ - 1),
      (List.range NTheta).foldl (lateralStep outerTable innerTable i) acc
        = acc ++ (List.range NTheta).flatMap (lateralQuad i) := by
    intro acc i hi
    rw [foldl_congr_mem _ (fun a j => a ++ lateralQuad i j) _
      (fun b j hj => lateralStep_eq i j (List.mem_range.mp hi) (List.mem_range.mp hj) b)]
    exact foldl_append_flatMap _ _ _
  rw [foldl_congr_mem _ (fun a i => a ++ (List.range NTheta).flatMap (lateralQuad i)) _ inner,
    foldl_append_flatMap,
    foldl_congr_mem _ (fun a j => a ++ capQuad j) _
      (fun b j hj => capStep_eq j (List.mem_range.mp hj) b),
    foldl_append_flatMap, List.nil_append]

theorem lateralQuad_lt (i j : Nat) (hi : i < NZ - 1) (hj : j < NTheta) :
    ∀ x ∈ lateralQuad i j, x < 2 * NZ * NTheta := by
  intro x hx
  simp only [lateralQuad, outerVertex, innerVertex, NTheta, NZ, List.mem_cons,
    List.mem_singleton, List.not_mem_nil, or_false] at hx hi hj ⊢
  omega

theorem capQuad_lt (j : Nat) (hj : j < NTheta) : ∀ x ∈ capQuad j, x < 2 * NZ * NTheta := by
  intro x hx
  simp only [capQuad, outerVertex, innerVertex, NTheta, NZ, List.mem_cons,
    List.mem_singleton, List.not_mem_nil, or_false] at hx hj ⊢
  omega

/-- Every entry of the index buffer is the index of one of the
`2 * NZ * NTheta` vertices. -/
theorem meshIndices_lt : ∀ x ∈ meshIndices, x < 2 * NZ * NTheta := by
  intro x hx
  simp only [meshIndices, List.mem_append, List.mem_flatMap, List.mem_range] at hx
  rcases hx with ⟨i, hi, j, hj, h⟩ | ⟨j, hj, h⟩
  · exact lateralQuad_lt i j hi hj x h
  · exact capQuad_lt j hj x h

/-- The index buffer does not depend on the parameters. -/
theorem indices_eq (M : JSMath K) (p : Params K) : (generateGeometry M p).indices = meshIndices := by
  simp only [generateGeometry, buildVertices_eq, buildIndices_eq]
  conv_rhs => rw [← List.map_id meshIndices]
  apply List.map_congr_left
  intro x hx
  have := meshIndices_lt x hx
  simp only [toUint32, id]
  apply Nat.mod_eq_of_lt
  simp only [NZ, NTheta] at this
  omega

theorem lateralQuad_length (i j : Nat) : (lateralQuad i j).length = 12 := rfl

theorem capQuad_length (j : Nat) : (capQuad j).length = 12 := rfl

theorem meshIndices_length : meshIndices.length = 192000 := by
  simp only [meshIndices, List.length_append]
  rw [length_flatMap_range _ (NTheta * 12)
      (fun i => length_flatMap_range _ 12 (lateralQuad_length i) NTheta) (NZ - 1),
    length_flatMap_range _ 12 capQuad_length NTheta]
  rfl

theorem triangles_flatMap {α : Type} (f : α → List Nat) (g : α → List (Nat × Nat × Nat))
    (h : ∀ x r, triangles (f x ++ r) = g x ++ triangles r) (l : List α) (r : List Nat) :
    triangles (l.flatMap f ++ r) = l.flatMap g ++ triangles r := by
  induction l with
  | nil => simp
  | cons x xs ih =>
    simp only [List.flatMap_cons, List.append_assoc]
    rw [h, ih]

theorem triangles_lateralQuad (i j : Nat) (r : List Nat) :
    triangles (lateralQuad i j ++ r) = lateralTris i j ++ triangles r := by
  simp [lateralQuad, lateralTris, triangles]

theorem triangles_capQuad (j : Nat) (r : List Nat) :
    triangles (capQuad j ++ r) = capTris j ++ triangles r := by
  simp [capQuad, capTris, triangles]

theorem triangles_meshIndices : triangles meshIndices = meshTriangles := by
  simp only [meshIndices, meshTriangles]
  rw [triangles_flatMap _ (fun i => (List.range NTheta).flatMap (lateralTris i))]
  · have := triangles_flatMap capQuad capTris triangles_capQuad (List.range NTheta) []
    simp only [List.append_nil] at this
    rw [this]
    simp [triangles]
  · intro i r
    exact triangles_flatMap _ _ (triangles_lateralQuad i) _ r

theorem mem_meshTriangles (t : Nat × Nat × Nat) :
    t ∈ meshTriangles ↔
      (∃ i j, i < NZ - 1 ∧ j < NTheta ∧ t ∈ lateralTris i j) ∨ (∃ j, j < NTheta ∧ t ∈ capTris j) := by
  simp only [meshTriangles, List.mem_append, List.mem_flatMap, List.mem_range]
  constructor
  · rintro (⟨i, hi, j, hj, h⟩ | ⟨j, hj, h⟩)
    · exact Or.inl ⟨i, j, hi, hj, h⟩
    · exact Or.inr ⟨j, hj, h⟩
  · rintro (⟨i, j, hi, hj, h⟩ | ⟨j, hj, h⟩)
    · exact Or.inl ⟨i, hi, j, hj, h⟩
    · exact Or.inr ⟨j, hj, h⟩

end IndexFacts

section EdgeFacts

theorem mem_quadEdges (e : Nat × Nat) (i j : Nat) :
    e ∈ quadEdges i j ↔
      (e.1 = outerVertex i j ∧ e.2 = outerVertex (i + 1) j) ∨
      (e.1 = outerVertex (i + 1) j ∧ e.2 = outerVertex (i + 1) ((j + 1) % NTheta)) ∨
      (e.1 = outerVertex (i + 1) ((j + 1) % NTheta) ∧ e.2 = outerVertex i j) ∨
      (e.1 = outerVertex i j ∧ e.2 = outerVertex (i + 1) ((j + 1) % NTheta)) ∨
      (e.1 = outerVertex (i + 1) ((j + 1) % NTheta) ∧ e.2 = outerVertex i ((j + 1) % NTheta)) ∨
      (e.1 = outerVertex i ((j + 1) % NTheta) ∧ e.2 = outerVertex i j) ∨
      (e.1 = innerVertex i j ∧ e.2 = innerVertex (i + 1) ((j + 1) % NTheta)) ∨
      (e.1 = innerVertex (i + 1) ((j + 1) % NTheta) ∧ e.2 = innerVertex (i + 1) j) ∨
      (e.1 = innerVertex (i + 1) j ∧ e.2 = innerVertex i j) ∨
      (e.1 = innerVertex i j ∧ e.2 = innerVertex i ((j + 1) % NTheta)) ∨
      (e.1 = innerVertex i ((j + 1) % NTheta) ∧ e.2 = innerVertex (i + 1) ((j + 1) % NTheta)) ∨
      (e.1 = innerVertex (i + 1) ((j + 1) % NTheta) ∧ e.2 = innerVertex i j) := by
  obtain ⟨a, b⟩ := e
  simp only [quadEdges, lateralTris, dirEdges, List.flatMap_cons, List.flatMap_nil,
    List.append_nil, List.cons_append, List.nil_append, List.mem_cons, List.mem_singleton,
    List.not_mem_nil, or_false, Prod.mk.injEq, or_assoc]

theorem mem_capEdges (e : Nat × Nat) (j : Nat) :
    e ∈ capEdges j ↔
      (e.1 = outerVertex 0 j ∧ e.2 = innerVertex 0 ((j + 1) % NTheta)) ∨
      (e.1 = innerVertex 0 ((j + 1) % NTheta) ∧ e.2 = innerVertex 0 j) ∨
      (e.1 = innerVertex 0 j ∧ e.2 = outerVertex 0 j) ∨
      (e.1 = outerVertex 0 j ∧ e.2 = outerVertex 0 ((j + 1) % NTheta)) ∨
      (e.1 = outerVertex 0 ((j + 1) % NTheta) ∧ e.2 = innerVertex 0 ((j + 1) % NTheta)) ∨
      (e.1 = innerVertex 0 ((j + 1) % NTheta) ∧ e.2 = outerVertex 0 j) ∨
      (e.1 = outerVertex (NZ - 1) j ∧ e.2 = innerVertex (NZ - 1) j) ∨
      (e.1 = innerVertex (NZ - 1) j ∧ e.2 = innerVertex (NZ - 1) ((j + 1) % NTheta)) ∨
      (e.1 = innerVertex (NZ - 1) ((j + 1) % NTheta) ∧ e.2 = outerVertex (NZ - 1) j) ∨
      (e.1 = outerVertex (NZ - 1) j ∧ e.2 = innerVertex (NZ - 1) ((j + 1) % NTheta)) ∨
      (e.1 = innerVertex (NZ - 1) ((j + 1) % NTheta) ∧
        e.2 = outerVertex (NZ - 1) ((j + 1) % NTheta)) ∨
      (e.1 = outerVertex (NZ - 1) ((j + 1) % NTheta) ∧ e.2 = outerVertex (NZ - 1) j) := by
  obtain ⟨a, b⟩ := e
  simp only [capEdges, capTris, dirEdges, List.flatMap_cons, List.flatMap_nil,
    List.append_nil, List.cons_append, List.nil_append, List.mem_cons, List.mem_singleton,
    List.not_mem_nil, or_false, Prod.mk.injEq, or_assoc]

/-- A directed edge of a lateral quad determines the quad. -/
theorem quadEdges_inj (e : Nat × Nat) (i j i' j' : Nat) (hj : j < NTheta) (hj' : j' < NTheta)
    (h : e ∈ quadEdges i j) (h' : e ∈ quadEdges i' j') : i = i' ∧ j = j' := by
  rw [mem_quadEdges] at h h'
  simp only [outerVertex, innerVertex, NTheta] at h h' hj hj'
  omega

/-- A directed edge of a cap triangle determines the angular step. -/
theorem capEdges_inj (e : Nat × Nat) (j j' : Nat) (hj : j < NTheta) (hj' : j' < NTheta)
    (h : e ∈ capEdges j) (h' : e ∈ capEdges j') : j = j' := by
  rw [mem_capEdges] at h h'
  simp only [outerVertex, innerVertex, NTheta, NZ] at h h' hj hj'
  omega

/-- No directed edge belongs both to a lateral triangle and to a cap triangle. -/
theorem quadEdges_capEdges_disjoint (e : Nat × Nat) (i j j' : Nat) (hi : i < NZ - 1)
    (hj : j < NTheta) (hj' : j' < NTheta) (h : e ∈ quadEdges i j) (h' : e ∈ capEdges j') :
    False := by
  rw [mem_quadEdges] at h
  rw [mem_capEdges] at h'
  simp only [outerVertex, innerVertex, NTheta, NZ] at h h' hi hj hj'
  omega

theorem quadEdges_nodup (i j : Nat) : (quadEdges i j).Nodup := by
  simp only [quadEdges, lateralTris, dirEdges, List.flatMap_cons, List.flatMap_nil,
    List.append_nil, List.cons_append, List.nil_append, List.nodup_cons, List.mem_cons,
    List.mem_singleton, List.not_mem_nil, or_false, Prod.mk.injEq, not_or, List.nodup_nil,
    not_false_eq_true, and_true, outerVertex, innerVertex, NTheta]
  omega

theorem capEdges_nodup (j : Nat) : (capEdges j).Nodup := by
  simp only [capEdges, capTris, dirEdges, List.flatMap_cons, List.flatMap_nil,
    List.append_nil, List.cons_append, List.nil_append, List.nodup_cons, List.mem_cons,
    List.mem_singleton, List.not_mem_nil, or_false, Prod.mk.injEq, not_or, List.nodup_nil,
    not_false_eq_true, and_true, outerVertex, innerVertex, NTheta, NZ]
  omega

/-- The reverse of a directed edge of a lateral triangle is a directed edge of
the mesh. -/
theorem quadEdges_rev (e : Nat × Nat) (i j : Nat) (hi : i < NZ - 1) (hj : j < NTheta)
    (h : e ∈ quadEdges i j) :
    (∃ i' j', i' < NZ - 1 ∧ j' < NTheta ∧ (e.2, e.1) ∈ quadEdges i' j') ∨
      (∃ j', j' < NTheta ∧ (e.2, e.1) ∈ capEdges j') := by
  rw [mem_quadEdges] at h
  simp only [NZ, NTheta] at hi hj
  rcases h with h | h | h | h | h | h | h | h | h | h | h | h
  · refine Or.inl ⟨i, (j + 79) % 80, by simp only [NZ]; omega, by simp only [NTheta]; omega, ?_⟩
    rw [mem_quadEdges]
    refine Or.inr (Or.inr (Or.inr (Or.inr (Or.inl ?_))))
    simp only [outerVertex, innerVertex, NTheta, NZ] at h ⊢
    omega
  · by_cases hc : i + 1 < 199
    · refine Or.inl ⟨i + 1, j, by simp only [NZ]; omega, by simp only [NTheta]; omega, ?_⟩
      rw [mem_quadEdges]
      refine Or.inr (Or.inr (Or.inr (Or.inr (Or.inr (Or.inl ?_)))))
      simp only [outerVertex, innerVertex, NTheta, NZ] at h ⊢
      omega
    · refine Or.inr ⟨j, by simp only [NTheta]; omega, ?_⟩
      rw [mem_capEdges]
      refine Or.inr (Or.inr (Or.inr (Or.inr (Or.inr (Or.inr (Or.inr (Or.inr (Or.inr (Or.inr (Or.inr ?_))))))))))
      simp only [outerVertex, innerVertex, NTheta, NZ] at h ⊢
      omega
  · refine Or.inl ⟨i, j, by simp only [NZ]; omega, by simp only [NTheta]; omega, ?_⟩
    rw [mem_quadEdges]
    refine Or.inr (Or.inr (Or.inr (Or.inl ?_)))
    simp only [outerVertex, innerVertex, NTheta, NZ] at h ⊢
    omega
  · refine Or.inl ⟨i, j, by simp only [NZ]; omega, by simp only [NTheta]; omega, ?_⟩
    rw [mem_quadEdges]
    refine Or.inr (Or.inr (Or.inl ?_))
    simp only [outerVertex, innerVertex, NTheta, NZ] at h ⊢
    omega
  · refine Or.inl ⟨i, (j + 1) % 80, by simp only [NZ]; omega, by simp only [NTheta]; omega, ?_⟩
    rw [mem_quadEdges]
    refine Or.inl ?_
    simp only [outerVertex, innerVertex, NTheta, NZ] at h ⊢
    omega
  · by_cases hc : i = 0
    · refine Or.inr ⟨j, by simp only [NTheta]; omega, ?_⟩
      rw [mem_capEdges]
      refine Or.inr (Or.inr (Or.inr (Or.inl ?_)))
      simp only [outerVertex, innerVertex, NTheta, NZ] at h ⊢
      omega
    · refine Or.inl ⟨i - 1, j, by simp only [NZ]; omega, by simp only [NTheta]; omega, ?_⟩
      rw [mem_quadEdges]
      refine Or.inr (Or.inl ?_)
      simp only [outerVertex, innerVertex, NTheta, NZ] at h ⊢
      omega
  · refine Or.inl ⟨i, j, by simp only [NZ]; omega, by simp only [NTheta]; omega, ?_⟩
    rw [mem_quadEdges]
    refine Or.inr (Or.inr (Or.inr (Or.inr (Or.inr (Or.inr (Or.inr (Or.inr (Or.inr (Or.inr (Or.inr ?_))))))))))
    simp only [outerVertex, innerVertex, NTheta, NZ] at h ⊢
    omega
  · by_cases hc : i + 1 < 199
    · refine Or.inl ⟨i + 1, j, by simp only [NZ]; omega, by simp only [NTheta]; omega, ?_⟩
      rw [mem_quadEdges]
      refine Or.inr (Or.inr (Or.inr (Or.inr (Or.inr (Or.inr (Or.inr (Or.inr (Or.inr (Or.inl ?_)))))))))
      simp only [outerVertex, innerVertex, NTheta, NZ] at h ⊢
      omega
    · refine Or.inr ⟨j, by simp only [NTheta]; omega, ?_⟩
      rw [mem_capEdges]
      refine Or.inr (Or.inr (Or.inr (Or.inr (Or.inr (Or.inr (Or.inr (Or.inl ?_)))))))
      simp only [outerVertex, innerVertex, NTheta, NZ] at h ⊢
      omega
  · refine Or.inl ⟨i, (j + 79) % 80, by simp only [NZ]; omega, by simp only [NTheta]; omega, ?_⟩
    rw [mem_quadEdges]
    refine Or.inr (Or.inr (Or.inr (Or.inr (Or.inr (Or.inr (Or.inr (Or.inr (Or.inr (Or.inr (Or.inl ?_))))))))))
    simp only [outerVertex, innerVertex, NTheta, NZ] at h ⊢
    omega
  · by_cases hc : i = 0
    · refine Or.inr ⟨j, by simp only [NTheta]; omega, ?_⟩
      rw [mem_capEdges]
      refine Or.inr (Or.inl ?_)
      simp only [outerVertex, innerVertex, NTheta, NZ] at h ⊢
      omega
    · refine Or.inl ⟨i - 1, j, by simp only [NZ]; omega, by simp only [NTheta]; omega, ?_⟩
      rw [mem_quadEdges]
      refine Or.inr (Or.inr (Or.inr (Or.inr (Or.inr (Or.inr (Or.inr (Or.inl ?_)))))))
      simp only [outerVertex, innerVertex, NTheta, NZ] at h ⊢
      omega
  · refine Or.inl ⟨i, (j + 1) % 80, by simp only [NZ]; omega, by simp only [NTheta]; omega, ?_⟩
    rw [mem_quadEdges]
    refine Or.inr (Or.inr (Or.inr (Or.inr (Or.inr (Or.inr (Or.inr (Or.inr (Or.inl ?_))))))))
    simp only [outerVertex, innerVertex, NTheta, NZ] at h ⊢
    omega
  · refine Or.inl ⟨i, j, by simp only [NZ]; omega, by simp only [NTheta]; omega, ?_⟩
    rw [mem_quadEdges]
    refine Or.inr (Or.inr (Or.inr (Or.inr (Or.inr (Or.inr (Or.inl ?_))))))
    simp only [outerVertex, innerVertex, NTheta, NZ] at h ⊢
    omega

/-- The reverse of a directed edge of a cap triangle is a directed edge of the
mesh. -/
theorem capEdges_rev (e : Nat × Nat) (j : Nat) (hj : j < NTheta) (h : e ∈ capEdges j) :
    (∃ i' j', i' < NZ - 1 ∧ j' < NTheta ∧ (e.2, e.1) ∈ quadEdges i' j') ∨
      (∃ j', j' < NTheta ∧ (e.2, e.1) ∈ capEdges j') := by
  rw [mem_capEdges] at h
  simp only [NTheta] at hj
  rcases h with h | h | h | h | h | h | h | h | h | h | h | h
  · refine Or.inr ⟨j, by simp only [NTheta]; omega, ?_⟩
    rw [mem_capEdges]
    refine Or.inr (Or.inr (Or.inr (Or.inr (Or.inr (Or.inl ?_)))))
    simp only [outerVertex, innerVertex, NTheta, NZ] at h ⊢
    omega
  · refine Or.inl ⟨0, j, by simp only [NZ]; omega, by simp only [NTheta]; omega, ?_⟩
    rw [mem_quadEdges]
    refine Or.inr (Or.inr (Or.inr (Or.inr (Or.inr (Or.inr (Or.inr (Or.inr (Or.inr (Or.inl ?_)))))))))
    simp only [outerVertex, innerVertex, NTheta, NZ] at h ⊢
    omega
  · refine Or.inr ⟨(j + 79) % 80, by simp only [NTheta]; omega, ?_⟩
    rw [mem_capEdges]
    refine Or.inr (Or.inr (Or.inr (Or.inr (Or.inl ?_))))
    simp only [outerVertex, innerVertex, NTheta, NZ] at h ⊢
    omega
  · refine Or.inl ⟨0, j, by simp only [NZ]; omega, by simp only [NTheta]; omega, ?_⟩
    rw [mem_quadEdges]
    refine Or.inr (Or.inr (Or.inr (Or.inr (Or.inr (Or.inl ?_)))))
    simp only [outerVertex, innerVertex, NTheta, NZ] at h ⊢
    omega
  · refine Or.inr ⟨(j + 1) % 80, by simp only [NTheta]; omega, ?_⟩
    rw [mem_capEdges]
    refine Or.inr (Or.inr (Or.inl ?_))
    simp only [outerVertex, innerVertex, NTheta, NZ] at h ⊢
    omega
  · refine Or.inr ⟨j, by simp only [NTheta]; omega, ?_⟩
    rw [mem_capEdges]
    refine Or.inl ?_
    simp only [outerVertex, innerVertex, NTheta, NZ] at h ⊢
    omega
  · refine Or.inr ⟨(j + 79) % 80, by simp only [NTheta]; omega, ?_⟩
    rw [mem_capEdges]
    refine Or.inr (Or.inr (Or.inr (Or.inr (Or.inr (Or.inr (Or.inr (Or.inr (Or.inr (Or.inr (Or.inl ?_))))))))))
    simp only [outerVertex, innerVertex, NTheta, NZ] at h ⊢
    omega
  · refine Or.inl ⟨198, j, by simp only [NZ]; omega, by simp only [NTheta]; omega, ?_⟩
    rw [mem_quadEdges]
    refine Or.inr (Or.inr (Or.inr (Or.inr (Or.inr (Or.inr (Or.inr (Or.inl ?_)))))))
    simp only [outerVertex, innerVertex, NTheta, NZ] at h ⊢
    omega
  · refine Or.inr ⟨j, by simp only [NTheta]; omega, ?_⟩
    rw [mem_capEdges]
    refine Or.inr (Or.inr (Or.inr (Or.inr (Or.inr (Or.inr (Or.inr (Or.inr (Or.inr (Or.inl ?_)))))))))
    simp only [outerVertex, innerVertex, NTheta, NZ] at h ⊢
    omega
  · refine Or.inr ⟨j, by simp only [NTheta]; omega, ?_⟩
    rw [mem_capEdges]
    refine Or.inr (Or.inr (Or.inr (Or.inr (Or.inr (Or.inr (Or.inr (Or.inr (Or.inl ?_))))))))
    simp only [outerVertex, innerVertex, NTheta, NZ] at h ⊢
    omega
  · refine Or.inr ⟨(j + 1) % 80, by simp only [NTheta]; omega, ?_⟩
    rw [mem_capEdges]
    refine Or.inr (Or.inr (Or.inr (Or.inr (Or.inr (Or.inr (Or.inl ?_))))))
    simp only [outerVertex, innerVertex, NTheta, NZ] at h ⊢
    omega
  · refine Or.inl ⟨198, j, by simp only [NZ]; omega, by simp only [NTheta]; omega, ?_⟩
    rw [mem_quadEdges]
    refine Or.inr (Or.inl ?_)
    simp only [outerVertex, innerVertex, NTheta, NZ] at h ⊢
    omega

end EdgeFacts

section Counting

theorem pairwise_range_of_ne (n : Nat) (R : Nat → Nat → Prop)
    (h : ∀ a b, a < n → b < n → a ≠ b → R a b) : (List.range n).Pairwise R :=
  (List.pairwise_lt_range n).imp_of_mem
    (fun ha hb hab => h _ _ (List.mem_range.mp ha) (List.mem_range.mp hb) (Nat.ne_of_lt hab))

theorem meshEdges_eq :
    meshEdges = (List.range (NZ - 1)).flatMap (fun i => (List.range NTheta).flatMap (quadEdges i))
      ++ (List.range NTheta).flatMap capEdges := by
  simp only [meshEdges, meshTriangles, List.flatMap_append, List.flatMap_assoc]
  rfl

theorem mem_meshEdges (e : Nat × Nat) :
    e ∈ meshEdges ↔
      (∃ i j, i < NZ - 1 ∧ j < NTheta ∧ e ∈ quadEdges i j) ∨ (∃ j, j < NTheta ∧ e ∈ capEdges j) := by
  rw [meshEdges_eq]
  simp only [List.mem_append, List.mem_flatMap, List.mem_range]
  constructor
  · rintro (⟨i, hi, j, hj, h⟩ | ⟨j, hj, h⟩)
    · exact Or.inl ⟨i, j, hi, hj, h⟩
    · exact Or.inr ⟨j, hj, h⟩
  · rintro (⟨i, j, hi, hj, h⟩ | ⟨j, hj, h⟩)
    · exact Or.inl ⟨i, hi, j, hj, h⟩
    · exact Or.inr ⟨j, hj, h⟩

/-- No directed edge occurs twice in the mesh. -/
theorem meshEdges_nodup : meshEdges.Nodup := by
  rw [meshEdges_eq, List.nodup_append]
  refine ⟨?_, ?_, ?_⟩
  · rw [List.nodup_flatMap]
    refine ⟨fun i _ => ?_, ?_⟩
    · rw [List.nodup_flatMap]
      refine ⟨fun j _ => quadEdges_nodup i j, ?_⟩
      apply pairwise_range_of_ne
      intro a b ha hb hab e h1 h2
      exact hab (quadEdges_inj e i a i b ha hb h1 h2).2
    · apply pairwise_range_of_ne
      intro a b _ _ hab e h1 h2
      simp only [List.mem_flatMap, List.mem_range] at h1 h2
      obtain ⟨j, hj, h1⟩ := h1
      obtain ⟨j', hj', h2⟩ := h2
      exact hab (quadEdges_inj e a j b j' hj hj' h1 h2).1
  · rw [List.nodup_flatMap]
    refine ⟨fun j _ => capEdges_nodup j, ?_⟩
    apply pairwise_range_of_ne
    intro a b ha hb hab e h1 h2
    exact hab (capEdges_inj e a b ha hb h1 h2)
  · intro e h1 h2
    simp only [List.mem_flatMap, List.mem_range] at h1 h2
    obtain ⟨i, hi, j, hj, h1⟩ := h1
    obtain ⟨j', hj', h2⟩ := h2
    exact quadEdges_capEdges_disjoint e i j j' hi hj hj' h1 h2

/-- The reverse of a directed edge of the mesh is a directed edge of the mesh. -/
theorem meshEdges_rev (e : Nat × Nat) (h : e ∈ meshEdges) : (e.2, e.1) ∈ meshEdges := by
  rw [mem_meshEdges] at h ⊢
  rcases h with ⟨i, j, hi, hj, h⟩ | ⟨j, hj, h⟩
  · exact quadEdges_rev e i j hi hj h
  · exact capEdges_rev e j hj h

theorem dirEdgeCount_eq_count (ts : List (Nat × Nat × Nat)) (a b : Nat)
    (h : ∀ t ∈ ts, (dirEdges t).Nodup) :
    dirEdgeCount ts a b
      = @List.count (Nat × Nat) instBEqOfDecidableEq (a, b) (ts.flatMap dirEdges) := by
  induction ts with
  | nil => rfl
  | cons t ts ih =>
    have ih' := ih (fun s hs => h s (List.mem_cons_of_mem t hs))
    simp only [dirEdgeCount] at ih' ⊢
    rw [List.countP_cons, List.flatMap_cons, @List.count_append _ instBEqOfDecidableEq, ih',
      @List.count_eq_of_nodup _ _ _ _ (h t (List.mem_cons_self t ts)), Nat.add_comm]
    simp

theorem dirEdges_nodup_of_mem (t : Nat × Nat × Nat) (h : t ∈ meshTriangles) :
    (dirEdges t).Nodup :=
  (List.nodup_flatMap.mp meshEdges_nodup).1 t h

/-- A directed edge of the mesh occurs in exactly one triangle. -/
theorem dirEdgeCount_of_mem (a b : Nat) (h : (a, b) ∈ meshEdges) :
    dirEdgeCount meshTriangles a b = 1 := by
  rw [dirEdgeCount_eq_count _ _ _ dirEdges_nodup_of_mem]
  exact List.count_eq_one_of_mem meshEdges_nodup h

theorem lateralTris_distinct (i j : Nat) (t : Nat × Nat × Nat) (h : t ∈ lateralTris i j) :
    t.1 ≠ t.2.1 ∧ t.2.1 ≠ t.2.2 ∧ t.2.2 ≠ t.1 := by
  obtain ⟨a, b, c⟩ := t
  simp only [lateralTris, List.mem_cons, List.mem_singleton, List.not_mem_nil, or_false,
    Prod.mk.injEq, outerVertex, innerVertex, NTheta] at h ⊢
  omega

theorem capTris_distinct (j : Nat) (t : Nat × Nat × Nat) (h : t ∈ capTris j) :
    t.1 ≠ t.2.1 ∧ t.2.1 ≠ t.2.2 ∧ t.2.2 ≠ t.1 := by
  obtain ⟨a, b, c⟩ := t
  simp only [capTris, List.mem_cons, List.mem_singleton, List.not_mem_nil, or_false,
    Prod.mk.injEq, outerVertex, innerVertex, NTheta, NZ] at h ⊢
  omega

/-- The three vertex indices of a triangle of the mesh are distinct. -/
theorem meshTriangles_distinct (t : Nat × Nat × Nat) (h : t ∈ meshTriangles) :
    t.1 ≠ t.2.1 ∧ t.2.1 ≠ t.2.2 ∧ t.2.2 ≠ t.1 := by
  rw [mem_meshTriangles] at h
  rcases h with ⟨i, j, _, _, h⟩ | ⟨j, _, h⟩
  · exact lateralTris_distinct i j t h
  · exact capTris_distinct j t h

theorem countP_or_add_and {α : Type} (p q : α → Bool) (l : List α) :
    l.countP (fun x => p x || q x) + l.countP (fun x => p x && q x)
      = l.countP p + l.countP q := by
  induction l with
  | nil => rfl
  | cons x xs ih =>
    simp only [List.countP_cons]
    cases hp : p x <;> cases hq : q x <;> simp <;> omega

/-- In a list of triangles with distinct vertices, the number of triangles on
an undirected edge is the sum of the numbers for its two directions. -/
theorem edgeCount_eq_add (ts : List (Nat × Nat × Nat)) (a b : Nat)
    (h : ∀ t ∈ ts, t.1 ≠ t.2.1 ∧ t.2.1 ≠ t.2.2 ∧ t.2.2 ≠ t.1) :
    edgeCount ts a b = dirEdgeCount ts a b + dirEdgeCount ts b a := by
  have hz : ts.countP (fun t => decide ((a, b) ∈ dirEdges t) && decide ((b, a) ∈ dirEdges t))
      = 0 := by
    rw [List.countP_eq_zero]
    intro t ht
    have hd := h t ht
    obtain ⟨x, y, z⟩ := t
    simp only [dirEdges, List.mem_cons, List.mem_singleton, List.not_mem_nil, or_false,
      Prod.mk.injEq, Bool.and_eq_true, decide_eq_true_eq] at hd ⊢
    omega
  have := countP_or_add_and (fun t => decide ((a, b) ∈ dirEdges t))
    (fun t => decide ((b, a) ∈ dirEdges t)) ts
  rw [hz, Nat.add_zero] at this
  simp only [edgeCount, dirEdgeCount, Bool.decide_or]
  exact this

theorem mem_meshEdges_of_mem (t : Nat × Nat × Nat) (ht : t ∈ meshTriangles) (e : Nat × Nat)
    (he : e ∈ dirEdges t) : e ∈ meshEdges :=
  List.mem_flatMap.mpr ⟨t, ht, he⟩

theorem triangles_indices {K : Type} [LinearOrderedField K] (M : JSMath K) (p : Params K) :
    triangles (generateGeometry M p).indices = meshTriangles := by
  rw [indices_eq, triangles_meshIndices]

end Counting

section VertexFacts

variable {K : Type} [LinearOrderedField K]

/-- The scalar at offset `r` of the block of the pair `(i, j)` in the vertex
buffer. -/
theorem vertices_getElem? (M : JSMath K) (p : Params K) (i j r : Nat) (hi : i < NZ)
    (hj : j < NTheta) (hr : r < 6) :
    (generateGeometry M p).vertices[i * (NTheta * 6) + (j * 6 + r)]? =
      (ringScalars M p (sampleZ p i) (sampleRadii M p i).1 (sampleRadii M p i).2 j)[r]? := by
  simp only [generateGeometry, buildVertices_eq]
  rw [getElem?_flatMap_range (rowScalars M p) (NTheta * 6) (rowScalars_length M p) NZ i
    (j * 6 + r) hi (by simp only [NTheta] at hj ⊢; omega)]
  exact getElem?_flatMap_range _ 6 (ringScalars_length M p _ _ _) NTheta j r hj hr

theorem vertexAt_outer (M : JSMath K) (p : Params K) (i j : Nat) (hi : i < NZ)
    (hj : j < NTheta) :
    vertexAt (generateGeometry M p).vertices (outerVertex i j) = some (outerPos M p i j) := by
  have e0 : outerVertex i j * 3 = i * (NTheta * 6) + (j * 6 + 0) := by
    simp only [outerVertex, NTheta]; omega
  have e1 : outerVertex i j * 3 + 1 = i * (NTheta * 6) + (j * 6 + 1) := by
    simp only [outerVertex, NTheta]; omega
  have e2 : outerVertex i j * 3 + 2 = i * (NTheta * 6) + (j * 6 + 2) := by
    simp only [outerVertex, NTheta]; omega
  simp only [vertexAt, readVertex, List.get?_eq_getElem?]
  rw [e2, e1, e0, vertices_getElem? M p i j 0 hi hj (by omega),
    vertices_getElem? M p i j 1 hi hj (by omega), vertices_getElem? M p i j 2 hi hj (by omega)]
  rfl

theorem vertexAt_inner (M : JSMath K) (p : Params K) (i j : Nat) (hi : i < NZ)
    (hj : j < NTheta) :
    vertexAt (generateGeometry M p).vertices (innerVertex i j) = some (innerPos M p i j) := by
  have e0 : innerVertex i j * 3 = i * (NTheta * 6) + (j * 6 + 3) := by
    simp only [innerVertex, NTheta]; omega
  have e1 : innerVertex i j * 3 + 1 = i * (NTheta * 6) + (j * 6 + 4) := by
    simp only [innerVertex, NTheta]; omega
  have e2 : innerVertex i j * 3 + 2 = i * (NTheta * 6) + (j * 6 + 5) := by
    simp only [innerVertex, NTheta]; omega
  simp only [vertexAt, readVertex, List.get?_eq_getElem?]
  rw [e2, e1, e0, vertices_getElem? M p i j 3 hi hj (by omega),
    vertices_getElem? M p i j 4 hi hj (by omega), vertices_getElem? M p i j 5 hi hj (by omega)]
  rfl

end VertexFacts

section Orientation

variable {K : Type} [LinearOrderedField K]

/-- The wall is at least `wallThickness` thick at every sample. -/
theorem wall_ge (M : JSMath K) (p : Params K) (i : Nat) :
    (sampleRadii M p i).2 + p.wallThickness ≤ (sampleRadii M p i).1 := by
  simp only [sampleRadii]
  split_ifs with h
  · exact le_refl _
  · linarith

/-- The inner radius lies between the smaller and the larger of the two end
radii. -/
theorem rIn_ge_min (M : JSMath K) (p : Params K) (i : Nat) :
    min (innerSmallR p) (innerBigR p) ≤ (sampleRadii M p i).2 := by
  simp only [sampleRadii, rInRule]
  split_ifs
  · exact min_le_left _ _
  · exact min_le_right _ _
  · exact min_le_left _ _
  · exact le_min (le_trans (min_le_left _ _) (le_max_right _ _)) (min_le_right _ _)

theorem rIn_pos (M : JSMath K) (p : Params K) (h : InUIRanges p) (i : Nat) :
    0 < (sampleRadii M p i).2 := by
  obtain ⟨_, ⟨hd, _⟩, ⟨hc, _⟩, ⟨hs, _⟩, ⟨hb, _⟩, _⟩ := h
  have h1 : 0 < innerSmallR p := by
    simp only [innerSmallR]
    exact div_pos (mul_pos (by linarith) (by norm_num at hs; linarith)) (by norm_num)
  have h2 : 0 < innerBigR p := by
    simp only [innerBigR]
    exact div_pos (mul_pos (by linarith) (by norm_num at hb; linarith)) (by norm_num)
  exact lt_of_lt_of_le (lt_min h1 h2) (rIn_ge_min M p i)

theorem rOut_gt_rIn (M : JSMath K) (p : Params K) (h : InUIRanges p) (i : Nat) :
    (sampleRadii M p i).2 < (sampleRadii M p i).1 := by
  have hw : 1 ≤ p.wallThickness := h.2.2.2.2.2.1.1
  have := wall_ge M p i
  linarith

theorem sampleZ_step (p : Params K) (i : Nat) :
    sampleZ p (i + 1) - sampleZ p i = p.bootLength / 199 := by
  simp only [sampleZ, NZ]
  push_cast
  ring

/-- The radial component of the normal of the outer triangle `(v00, v10, v11)`
of the quad `(i, j)`, with `j'` in the place of `jNext`. -/
theorem radial_outer_first (M : JSMath K) (p : Params K) (i j j' : Nat) :
    radialComponent M j (triNormal (outerPos M p i j) (outerPos M p (i + 1) j)
        (outerPos M p (i + 1) j'))
      = -((sampleZ p (i + 1) - sampleZ p i) * (sampleRadii M p (i + 1)).1 * sinStep M j j') := by
  simp only [radialComponent, triNormal, outerPos, sinStep]
  ring

/-- The radial component of the normal of the outer triangle `(v00, v11, v01)`. -/
theorem radial_outer_second (M : JSMath K) (p : Params K) (i j j' : Nat) :
    radialComponent M j (triNormal (outerPos M p i j) (outerPos M p (i + 1) j')
        (outerPos M p i j'))
      = -((sampleZ p (i + 1) - sampleZ p i) * (sampleRadii M p i).1 * sinStep M j j') := by
  simp only [radialComponent, triNormal, outerPos, sinStep]
  ring

/-- The radial component of the normal of the inner triangle
`(v00i, v11i, v10i)`. -/
theorem radial_inner_first (M : JSMath K) (p : Params K) (i j j' : Nat) :
    radialComponent M j (triNormal (innerPos M p i j) (innerPos M p (i + 1) j')
        (innerPos M p (i + 1) j))
      = (sampleZ p (i + 1) - sampleZ p i) * (sampleRadii M p (i + 1)).2 * sinStep M j j' := by
  simp only [radialComponent, triNormal, innerPos, sinStep]
  ring

/-- The radial component of the normal of the inner triangle
`(v00i, v01i, v11i)`. -/
theorem radial_inner_second (M : JSMath K) (p : Params K) (i j j' : Nat) :
    radialComponent M j (triNormal (innerPos M p i j) (innerPos M p i j')
        (innerPos M p (i + 1) j'))
      = (sampleZ p (i + 1) - sampleZ p i) * (sampleRadii M p i).2 * sinStep M j j' := by
  simp only [radialComponent, triNormal, innerPos, sinStep]
  ring

/-- The `y` component of the normal of the cap triangle `(vo, vi', vi)` built
on sample `i`. -/
theorem capNormal_first (M : JSMath K) (p : Params K) (i j j' : Nat) :
    (triNormal (outerPos M p i j) (innerPos M p i j') (innerPos M p i j)).2.1
      = -(((sampleRadii M p i).1 - (sampleRadii M p i).2) * (sampleRadii M p i).2
          * sinStep M j j') := by
  simp only [triNormal, outerPos, innerPos, sinStep]
  ring

/-- The `y` component of the normal of the cap triangle `(vo, vo', vi')` built
on sample `i`. -/
theorem capNormal_second (M : JSMath K) (p : Params K) (i j j' : Nat) :
    (triNormal (outerPos M p i j) (outerPos M p i j') (innerPos M p i j')).2.1
      = -(((sampleRadii M p i).1 - (sampleRadii M p i).2) * (sampleRadii M p i).1
          * sinStep M j j') := by
  simp only [triNormal, outerPos, innerPos, sinStep]
  ring

/-- The `y` component of the normal of the cap triangle `(vo, vi, vi')` built
on sample `i`. -/
theorem capNormal_third (M : JSMath K) (p : Params K) (i j j' : Nat) :
    (triNormal (outerPos M p i j) (innerPos M p i j) (innerPos M p i j')).2.1
      = ((sampleRadii M p i).1 - (sampleRadii M p i).2) * (sampleRadii M p i).2
          * sinStep M j j' := by
  simp only [triNormal, outerPos, innerPos, sinStep]
  ring

/-- The `y` component of the normal of the cap triangle `(vo, vi', vo')` built
on sample `i`. -/
theorem capNormal_fourth (M : JSMath K) (p : Params K) (i j j' : Nat) :
    (triNormal (outerPos M p i j) (innerPos M p i j') (outerPos M p i j')).2.1
      = ((sampleRadii M p i).1 - (sampleRadii M p i).2) * (sampleRadii M p i).1
          * sinStep M j j' := by
  simp only [triNormal, outerPos, innerPos, sinStep]
  ring

/-- With the real sine and cosine, the sine of the angular step from a sample
to the next one (with wrap-around) is `sin (pi / 40) > 0`. -/
theorem sinStep_pos (M : JSMath ℝ) (hs : M.sin = Real.sin) (hc : M.cos = Real.cos)
    (hp : M.PI = Real.pi) (j : Nat) (hj : j < NTheta) :
    0 < sinStep M j ((j + 1) % NTheta) := by
  have hpos : 0 < Real.sin (Real.pi / 40) :=
    Real.sin_pos_of_pos_of_lt_pi (by positivity) (by linarith [Real.pi_pos])
  simp only [sinStep, hs, hc, ← Real.sin_sub, sampleTheta, hp, NTheta] at hj ⊢
  by_cases h79 : j = 79
  · subst h79
    have e : 2 * Real.pi * ((((79 + 1) % 80 : ℕ) : ℝ)) / ((80 : ℕ) : ℝ)
        - 2 * Real.pi * ((79 : ℕ) : ℝ) / ((80 : ℕ) : ℝ) = Real.pi / 40 - 2 * Real.pi := by
      norm_num
      ring
    rw [e, Real.sin_sub_two_pi]
    exact hpos
  · have hmod : (j + 1) % 80 = j + 1 := Nat.mod_eq_of_lt (by omega)
    have e : 2 * Real.pi * (((j + 1) % 80 : ℕ) : ℝ) / ((80 : ℕ) : ℝ)
        - 2 * Real.pi * (j : ℝ) / ((80 : ℕ) : ℝ) = Real.pi / 40 := by
      rw [hmod]
      push_cast
      ring
    rw [e]
    exact hpos

/-- What the code does on the lateral surfaces: for sliders in range, the
normals of the two outer triangles of every quad have a strictly negative
radial component and those of the two inner triangles a strictly positive
one. -/
theorem lateral_normals_inward (M : JSMath ℝ) (hs : M.sin = Real.sin) (hc : M.cos = Real.cos)
    (hp : M.PI = Real.pi) (p : Params ℝ) (h : InUIRanges p) (i j : Nat) (hj : j < NTheta) :
    radialComponent M j (triNormal (outerPos M p i j) (outerPos M p (i + 1) j)
        (outerPos M p (i + 1) ((j + 1) % NTheta))) < 0 ∧
    radialComponent M j (triNormal (outerPos M p i j)
        (outerPos M p (i + 1) ((j + 1) % NTheta)) (outerPos M p i ((j + 1) % NTheta))) < 0 ∧
    0 < radialComponent M j (triNormal (innerPos M p i j)
        (innerPos M p (i + 1) ((j + 1) % NTheta)) (innerPos M p (i + 1) j)) ∧
    0 < radialComponent M j (triNormal (innerPos M p i j) (innerPos M p i ((j + 1) % NTheta))
        (innerPos M p (i + 1) ((j + 1) % NTheta))) := by
  have hS := sinStep_pos M hs hc hp j hj
  have hz : 0 < sampleZ p (i + 1) - sampleZ p i := by
    rw [sampleZ_step]
    exact div_pos (by linarith [h.1.1]) (by norm_num)
  have hi0 := rIn_pos M p h i
  have hi1 := rIn_pos M p h (i + 1)
  have ho0 := lt_trans hi0 (rOut_gt_rIn M p h i)
  have ho1 := lt_trans hi1 (rOut_gt_rIn M p h (i + 1))
  rw [radial_outer_first, radial_outer_second, radial_inner_first, radial_inner_second]
  refine ⟨?_, ?_, ?_, ?_⟩
  · exact neg_neg_of_pos (mul_pos (mul_pos hz ho1) hS)
  · exact neg_neg_of_pos (mul_pos (mul_pos hz ho0) hS)
  · exact mul_pos (mul_pos hz hi1) hS
  · exact mul_pos (mul_pos hz hi0) hS

/-- What the code does on the end caps: for sliders in range, the normals of
the two cap triangles built on a sample `i` with the winding of the cap on
sample 0 have a strictly negative `y` component, and those with the winding
of the cap on sample `NZ - 1` a strictly positive one. -/
theorem cap_normals_inward (M : JSMath ℝ) (hs : M.sin = Real.sin) (hc : M.cos = Real.cos)
    (hp : M.PI = Real.pi) (p : Params ℝ) (h : InUIRanges p) (i j : Nat) (hj : j < NTheta) :
    (triNormal (outerPos M p i j) (innerPos M p i ((j + 1) % NTheta)) (innerPos M p i j)).2.1
      < 0 ∧
    (triNormal (outerPos M p i j) (outerPos M p i ((j + 1) % NTheta))
      (innerPos M p i ((j + 1) % NTheta))).2.1 < 0 ∧
    0 < (triNormal (outerPos M p i j) (innerPos M p i j)
      (innerPos M p i ((j + 1) % NTheta))).2.1 ∧
    0 < (triNormal (outerPos M p i j) (innerPos M p i ((j + 1) % NTheta))
      (outerPos M p i ((j + 1) % NTheta))).2.1 := by
  have hS := sinStep_pos M hs hc hp j hj
  have hi := rIn_pos M p h i
  have hd : 0 < (sampleRadii M p i).1 - (sampleRadii M p i).2 :=
    sub_pos.mpr (rOut_gt_rIn M p h i)
  have ho := lt_trans hi (rOut_gt_rIn M p h i)
  rw [capNormal_first, capNormal_second, capNormal_third, capNormal_fourth]
  refine ⟨?_, ?_, ?_, ?_⟩
  · exact neg_neg_of_pos (mul_pos (mul_pos hd hi) hS)
  · exact neg_neg_of_pos (mul_pos (mul_pos hd ho) hS)
  · exact mul_pos (mul_pos hd hi) hS
  · exact mul_pos (mul_pos hd ho) hS

end Orientation

section SerializerFacts

variable {K : Type} [LinearOrderedField K]

theorem unlines_append (xs ys : List String) : unlines (xs ++ ys) = unlines xs ++ unlines ys := by
  induction xs with
  | nil => simp [unlines]
  | cons x xs ih =>
    show x ++ "\n" ++ unlines (xs ++ ys) = x ++ "\n" ++ unlines xs ++ unlines ys
    rw [ih, String.append_assoc (x ++ "\n")]

theorem readVertex_of_lt (vertices : List K) (v : Nat) (h : v * 3 + 2 < vertices.length) :
    readVertex vertices (v * 3) = some (positionAt vertices v) := by
  have h0 : v * 3 < vertices.length := by omega
  have h1 : v * 3 + 1 < vertices.length := by omega
  simp [readVertex, positionAt, List.getElem?_eq_getElem, h0, h1, h, List.getD_eq_getElem?_getD]

theorem indices_get?_of_lt (indices : List Nat) (n : Nat) (h : n < indices.length) :
    indices.get? n = some (indices.getD n 0) := by
  simp [List.getElem?_eq_getElem, h, List.getD_eq_getElem?_getD]

theorem getD_mem (indices : List Nat) (n : Nat) (h : n < indices.length) :
    indices.getD n 0 ∈ indices := by
  rw [List.getD_eq_getElem?_getD, List.getElem?_eq_getElem h]
  exact List.getElem_mem h

/-- The text of one iteration of the STL loop is the facet record of its
triangle. -/
theorem facetText_eq (fmt : K → String) (M : JSMath K) (vertices : List K) (indices : List Nat)
    (hv : ∀ v ∈ indices, v * 3 + 2 < vertices.length) (k : Nat)
    (hk : 3 * k + 2 < indices.length) :
    facetText fmt M vertices indices (3 * k)
      = some (unlines (facetLinesAt fmt M vertices indices k)) := by
  have h0 : 3 * k < indices.length := by omega
  have h1 : 3 * k + 1 < indices.length := by omega
  have e1 : ∀ X : String, "    outer loop" ++ ("\n" ++ X) = "    outer loop\n" ++ X :=
    fun X => by rw [← String.append_assoc]; rfl
  have e2 : ∀ X : String, "    endloop" ++ ("\n" ++ X) = "    endloop\n" ++ X :=
    fun X => by rw [← String.append_assoc]; rfl
  have e3 : "  endfacet" ++ "\n" = "  endfacet\n" := rfl
  simp only [facetText, indices_get?_of_lt _ _ h0, indices_get?_of_lt _ _ h1,
    indices_get?_of_lt _ _ hk, Option.bind_eq_bind, Option.some_bind,
    readVertex_of_lt _ _ (hv _ (getD_mem _ _ h0)), readVertex_of_lt _ _ (hv _ (getD_mem _ _ h1)),
    readVertex_of_lt _ _ (hv _ (getD_mem _ _ hk)), Option.pure_def, facetLinesAt, facetLines,
    unlines, normalLine, vertexLine, String.append_assoc, String.append_empty, e1, e2, e3]

/-- The STL loop from triangle `k` on, when `m` triangles remain. -/
theorem stlLoop_eq (fmt : K → String) (M : JSMath K) (vertices : List K) (indices : List Nat)
    (hv : ∀ v ∈ indices, v * 3 + 2 < vertices.length) (m k : Nat)
    (hlen : indices.length = 3 * (k + m)) (stl : String) :
    stlLoop fmt M vertices indices (3 * k) stl
      = some (stl ++ unlines ((List.range' k m).flatMap (facetLinesAt fmt M vertices indices))) := by
  induction m generalizing k stl with
  | zero =>
    rw [stlLoop, if_neg (by omega)]
    simp [unlines]
  | succ m ih =>
    rw [stlLoop, if_pos (by omega), facetText_eq fmt M vertices indices hv k (by omega)]
    simp only []
    have e : 3 * k + 3 = 3 * (k + 1) := by ring
    rw [e, ih (k + 1) (by omega), List.range'_succ, List.flatMap_cons, unlines_append,
      String.append_assoc]

end SerializerFacts

/-! ## The claims -/

section Claims

variable {K : Type} [LinearOrderedField K]

/-- C1. The index buffer returned by `generateGeometry` is the same for every
parameter set and is a watertight triangle set: every triangle has three
distinct vertex indices, and every undirected edge of a triangle occurs in
exactly two triangles of the buffer. -/
theorem watertight (M : JSMath K) (p : Params K) :
    (∀ (M' : JSMath K) (p' : Params K),
      (generateGeometry M' p').indices = (generateGeometry M p).indices) ∧
    (∀ t ∈ triangles (generateGeometry M p).indices,
      t.1 ≠ t.2.1 ∧ t.2.1 ≠ t.2.2 ∧ t.2.2 ≠ t.1) ∧
    (∀ t ∈ triangles (generateGeometry M p).indices, ∀ e ∈ dirEdges t,
      edgeCount (triangles (generateGeometry M p).indices) e.1 e.2 = 2) := by
  refine ⟨fun M' p' => by rw [indices_eq, indices_eq], ?_, ?_⟩
  · rw [triangles_indices]
    exact meshTriangles_distinct
  · rw [triangles_indices]
    intro t ht e he
    have hm := mem_meshEdges_of_mem t ht e he
    rw [edgeCount_eq_add _ _ _ meshTriangles_distinct, dirEdgeCount_of_mem _ _ hm,
      dirEdgeCount_of_mem _ _ (meshEdges_rev e hm)]

/-- C1 at the first outer triangle `(0, 160, 162)` and its edge `{0, 160}`. -/
theorem watertight_witness :
    edgeCount (triangles (generateGeometry stubMath (defaultParams ℚ)).indices) 0 160 = 2 :=
  (watertight stubMath (defaultParams ℚ)).2.2 (0, 160, 162)
    (by rw [triangles_indices, mem_meshTriangles]
        exact Or.inl ⟨0, 0, by decide, by decide, by decide⟩)
    (0, 160) (by decide)

/-- C2. The mesh is consistently oriented: every directed edge of a triangle of
the index buffer occurs in exactly one triangle, and so does the reversed
edge. -/
theorem consistently_oriented (M : JSMath K) (p : Params K) (t : Nat × Nat × Nat)
    (ht : t ∈ triangles (generateGeometry M p).indices) (e : Nat × Nat) (he : e ∈ dirEdges t) :
    dirEdgeCount (triangles (generateGeometry M p).indices) e.1 e.2 = 1 ∧
    dirEdgeCount (triangles (generateGeometry M p).indices) e.2 e.1 = 1 := by
  rw [triangles_indices] at ht ⊢
  have hm := mem_meshEdges_of_mem t ht e he
  exact ⟨dirEdgeCount_of_mem _ _ hm, dirEdgeCount_of_mem _ _ (meshEdges_rev e hm)⟩

/-- C2 at the cap triangle `(0, 3, 1)` of sample 0 and its edge `3 -> 1`, which
lies on the ring where the cap meets the inner surface. -/
theorem consistently_oriented_witness :
    dirEdgeCount (triangles (generateGeometry stubMath (defaultParams ℚ)).indices) 3 1 = 1 ∧
    dirEdgeCount (triangles (generateGeometry stubMath (defaultParams ℚ)).indices) 1 3 = 1 :=
  consistently_oriented stubMath (defaultParams ℚ) (0, 3, 1)
    (by rw [triangles_indices, mem_meshTriangles]
        exact Or.inr ⟨0, by decide, by decide⟩)
    (3, 1) (by decide)

/-- C5. Minimum wall thickness: for every parameter set, every `Math` object
and every axial sample, the radii used for the vertices satisfy
`rOut - rIn >= wallThickness`. -/
theorem min_wall_thickness (M : JSMath K) (p : Params K) (i : Nat) :
    (sampleRadii M p i).1 - (sampleRadii M p i).2 ≥ p.wallThickness := by
  have := wall_ge M p i
  linarith

/-- C6, the claim as stated fails: the index buffer of the default parameters
does not have `3 * (2*(NZ-1)*NTheta*2 + NTheta*2) = 191520` entries. -/
theorem index_count_claim_fails :
    (generateGeometry stubMath (defaultParams ℚ)).indices.length
      ≠ 3 * (2 * (NZ - 1) * NTheta * 2 + NTheta * 2) := by
  rw [indices_eq, meshIndices_length]
  decide

/-- C6, amended. For every parameter set the index buffer has exactly
`3 * (2*(NZ-1)*NTheta*2 + 2*NTheta*2) = 192000` entries: the lateral indices
and `2 * NTheta*2*3` cap indices, two triangles per angular step on each of the
two caps. -/
theorem index_count (M : JSMath K) (p : Params K) :
    (generateGeometry M p).indices.length = 3 * (2 * (NZ - 1) * NTheta * 2 + 2 * NTheta * 2) ∧
    3 * (2 * (NZ - 1) * NTheta * 2 + 2 * NTheta * 2) = 192000 ∧
    2 * (NZ - 1) * NTheta * 2 * 3 = 191040 ∧ 2 * NTheta * 2 * 3 = 960 := by
  rw [indices_eq, meshIndices_length]
  decide

/-- C7. The vertex buffer has `2 * NZ * NTheta = 32000` positions (96000
scalars); the outer vertex of the pair `(i, j)` is recorded and stored at
index `2 * (i * NTheta + j)` and the inner vertex at the next index. -/
theorem vertex_buffer_layout (M : JSMath K) (p : Params K) :
    (generateGeometry M p).vertices.length = 3 * (2 * NZ * NTheta) ∧
    2 * NZ * NTheta = 32000 ∧ 3 * (2 * NZ * NTheta) = 96000 ∧
    ∀ i j, i < NZ → j < NTheta →
      idxAt (buildVertices M p).outerIdx i j = 2 * (i * NTheta + j) ∧
      idxAt (buildVertices M p).innerIdx i j = 2 * (i * NTheta + j) + 1 ∧
      vertexAt (generateGeometry M p).vertices (2 * (i * NTheta + j))
        = some (outerPos M p i j) ∧
      vertexAt (generateGeometry M p).vertices (2 * (i * NTheta + j) + 1)
        = some (innerPos M p i j) := by
  refine ⟨vertices_length M p, by decide, by decide, fun i j hi hj => ?_⟩
  rw [buildVertices_eq]
  exact ⟨idxAt_outerTable i j hi hj, idxAt_innerTable i j hi hj, vertexAt_outer M p i j hi hj,
    vertexAt_inner M p i j hi hj⟩

/-- C7 at the pair `(1, 2)`: its outer vertex has index 164. -/
theorem vertex_buffer_layout_witness :
    idxAt (buildVertices stubMath (defaultParams ℚ)).outerIdx 1 2 = 2 * (1 * NTheta + 2) ∧
    idxAt (buildVertices stubMath (defaultParams ℚ)).innerIdx 1 2 = 2 * (1 * NTheta + 2) + 1 ∧
    vertexAt (generateGeometry stubMath (defaultParams ℚ)).vertices (2 * (1 * NTheta + 2))
      = some (outerPos stubMath (defaultParams ℚ) 1 2) ∧
    vertexAt (generateGeometry stubMath (defaultParams ℚ)).vertices (2 * (1 * NTheta + 2) + 1)
      = some (innerPos stubMath (defaultParams ℚ) 1 2) :=
  (vertex_buffer_layout stubMath (defaultParams ℚ)).2.2.2 1 2 (by decide) (by decide)

end Claims

section EndSamples

variable {K : Type} [LinearOrderedField K]

/-- The radii at the first axial sample, `z = 0`, for sliders in range. -/
theorem sampleRadii_first (M : JSMath K) (p : Params K) (h : InUIRanges p) :
    sampleRadii M p 0 = (rSmallOuter p + p.shoulderHeight, innerSmallR p) := by
  obtain ⟨_, _, _, _, _, _, _, _, ⟨hs0, _⟩, ⟨hw, _⟩, ⟨hf, _⟩, _⟩ := h
  have hz := sampleZ_zero p
  have h1 : inSmallFlat p 0 := by simp only [inSmallFlat, hz]; linarith
  have h2 : (0 : K) ≤ p.shoulderWidth := by linarith
  simp only [sampleRadii, rOutRule, rInRule, if_pos h1, hz, if_pos h2, rSmallOuter]
  rw [if_neg (by linarith)]

/-- The radii at the last axial sample, `z = bootLength`, for sliders in
range. -/
theorem sampleRadii_last (M : JSMath K) (p : Params K) (h : InUIRanges p) :
    sampleRadii M p (NZ - 1) = (rBigOuter p + p.shoulderHeight + 1.5, innerBigR p) := by
  obtain ⟨⟨hL, _⟩, _, _, _, _, _, _, _, ⟨hs0, _⟩, ⟨hw, hw8⟩, ⟨_, hf⟩, ⟨hb, _⟩⟩ := h
  have hz := sampleZ_last p
  have h1 : ¬ inSmallFlat p (NZ - 1) := by simp only [inSmallFlat, hz]; linarith
  have h2 : inBigFlat p (NZ - 1) := by simp only [inBigFlat, hz]; linarith
  have h3 : ¬ (p.bootLength - p.flatBigLen ≤ p.bootLength ∧
      p.bootLength ≤ p.bootLength - p.flatBigLen + p.shoulderWidth) := by
    intro ⟨_, h⟩; linarith
  have h4 : p.bootLength ≥ p.bootLength - p.shoulderWidth := by linarith
  simp only [sampleRadii, rOutRule, rInRule, if_neg h1, if_pos h2, hz, if_neg h3, if_pos h4,
    rBigOuter]
  rw [if_neg (by norm_num; linarith)]

end EndSamples

section Claims2

variable {K : Type} [LinearOrderedField K]

/-- C8, the claim as stated fails: the default parameters are in the UI ranges,
and at the sample `z = 0` the outer radius is neither
`rBigOuter + shoulderHeight + 1.5` nor `rBigOuter + 1.5`, the inner radius is
not `innerBigR`, and the radii are not 54.505 and 47.025; at the sample
`z = bootLength` they are not 10.25 and 4.75. -/
theorem end_cap_radius_claim_fails :
    InUIRanges (defaultParams ℚ) ∧
    (sampleRadii stubMath (defaultParams ℚ) 0).1
      ≠ rBigOuter (defaultParams ℚ) + (defaultParams ℚ).shoulderHeight + 1.5 ∧
    (sampleRadii stubMath (defaultParams ℚ) 0).1 ≠ rBigOuter (defaultParams ℚ) + 1.5 ∧
    (sampleRadii stubMath (defaultParams ℚ) 0).2 ≠ innerBigR (defaultParams ℚ) ∧
    sampleRadii stubMath (defaultParams ℚ) 0 ≠ (54.505, 47.025) ∧
    sampleRadii stubMath (defaultParams ℚ) (NZ - 1) ≠ (10.25, 4.75) := by
  refine ⟨defaultParams_inUIRanges, ?_⟩
  rw [sampleRadii_first _ _ defaultParams_inUIRanges,
    sampleRadii_last _ _ defaultParams_inUIRanges]
  simp only [innerBigR, innerSmallR, rSmallOuter, rBigOuter, defaultParams, ne_eq,
    Prod.mk.injEq, not_and]
  norm_num

/-- C8, amended. For sliders in range the sample `z = 0` (`i = 0`) is the
small end, with outer radius `rSmallOuter + shoulderHeight` and inner radius
`innerSmallR`, and the sample `z = bootLength` (`i = NZ - 1`) is the big end,
with outer radius `rBigOuter + shoulderHeight + 1.5` and inner radius
`innerBigR`; the default parameters give 10.25 and 4.75 at `z = 0`, 54.025 and
47.025 at `z = 120`. -/
theorem end_cap_radius (M : JSMath K) (p : Params K) (h : InUIRanges p) :
    (sampleZ p 0 = 0 ∧
      sampleRadii M p 0 = (rSmallOuter p + p.shoulderHeight, innerSmallR p)) ∧
    (sampleZ p (NZ - 1) = p.bootLength ∧
      sampleRadii M p (NZ - 1) = (rBigOuter p + p.shoulderHeight + 1.5, innerBigR p)) ∧
    (sampleZ (defaultParams K) 0 = 0 ∧ sampleRadii M (defaultParams K) 0 = (10.25, 4.75)) ∧
    (sampleZ (defaultParams K) (NZ - 1) = 120 ∧
      sampleRadii M (defaultParams K) (NZ - 1) = (54.025, 47.025)) := by
  refine ⟨⟨sampleZ_zero p, sampleRadii_first M p h⟩, ⟨sampleZ_last p, sampleRadii_last M p h⟩,
    ⟨sampleZ_zero _, ?_⟩, ⟨sampleZ_last _, ?_⟩⟩
  · rw [sampleRadii_first _ _ defaultParams_inUIRanges]
    simp only [innerSmallR, rSmallOuter, defaultParams, Prod.mk.injEq]
    norm_num
  · rw [sampleRadii_last _ _ defaultParams_inUIRanges]
    simp only [innerBigR, rBigOuter, defaultParams, Prod.mk.injEq]
    norm_num

/-- C8, amended, at the default parameters. -/
theorem end_cap_radius_witness :
    sampleRadii stubMath (defaultParams ℚ) 0
      = (rSmallOuter (defaultParams ℚ) + (defaultParams ℚ).shoulderHeight,
          innerSmallR (defaultParams ℚ)) ∧
    sampleRadii stubMath (defaultParams ℚ) (NZ - 1)
      = (rBigOuter (defaultParams ℚ) + (defaultParams ℚ).shoulderHeight + 1.5,
          innerBigR (defaultParams ℚ)) :=
  ⟨(end_cap_radius stubMath (defaultParams ℚ) defaultParams_inUIRanges).1.2,
    (end_cap_radius stubMath (defaultParams ℚ) defaultParams_inUIRanges).2.1.2⟩

/-- C9, amended. Degenerate-input stability in exact arithmetic: over an
ordered field, for every parameter set and every axial sample, the midsection
branch is taken only when `LMid > 0`, and there `0 < t < 1`, so the division
by `LMid` never has a zero divisor; when
`flatSmallLen + flatBigLen >= bootLength` every sample is small-flat or
big-flat, no division by zero is evaluated, and the vertex and index buffers
have their full lengths. -/
theorem degenerate_input_stability (M : JSMath K) (p : Params K) (i : Nat) :
    (inMidsection p i → 0 < LMid p ∧ 0 < sampleT p i ∧ sampleT p i < 1) ∧
    (p.nRibs ≠ 0 → sampleRadiiChecked M p i = some (sampleRadii M p i)) ∧
    (p.flatSmallLen + p.flatBigLen ≥ p.bootLength →
      (inSmallFlat p i ∨ inBigFlat p i) ∧
      sampleRadiiChecked M p i = some (sampleRadii M p i) ∧
      (generateGeometry M p).vertices.length = 3 * (2 * NZ * NTheta) ∧
      (generateGeometry M p).indices.length = 192000) := by
  refine ⟨midsection_facts p i, fun hn => sampleRadiiChecked_eq M p i (Or.inl hn), fun hd => ?_⟩
  have hflat : inSmallFlat p i ∨ inBigFlat p i := by
    by_contra hc
    rw [not_or] at hc
    have := (midsection_facts p i hc).1
    simp only [LMid] at this
    linarith
  exact ⟨hflat, sampleRadiiChecked_eq M p i (Or.inr hflat), vertices_length M p,
    by rw [indices_eq, meshIndices_length]⟩

/-- C9, amended, at sample 100: in the midsection for the default parameters, in a flat
zone for the parameters with a zero-length midsection. -/
theorem degenerate_input_stability_witness :
    (0 < LMid (defaultParams ℚ) ∧ 0 < sampleT (defaultParams ℚ) 100 ∧
      sampleT (defaultParams ℚ) 100 < 1) ∧
    sampleRadiiChecked stubMath (defaultParams ℚ) 100
      = some (sampleRadii stubMath (defaultParams ℚ) 100) ∧
    ((inSmallFlat degenerateParams 100 ∨ inBigFlat degenerateParams 100) ∧
      sampleRadiiChecked stubMath degenerateParams 100
        = some (sampleRadii stubMath degenerateParams 100) ∧
      (generateGeometry stubMath degenerateParams).vertices.length = 3 * (2 * NZ * NTheta) ∧
      (generateGeometry stubMath degenerateParams).indices.length = 192000) :=
  ⟨(degenerate_input_stability stubMath (defaultParams ℚ) 100).1
      (by simp only [inMidsection, inSmallFlat, inBigFlat, sampleZ, defaultParams, NZ]
          norm_num),
    (degenerate_input_stability stubMath (defaultParams ℚ) 100).2.1
      (by simp only [defaultParams]; norm_num),
    (degenerate_input_stability stubMath degenerateParams 100).2.2
      (by simp only [degenerateParams]; norm_num)⟩

end Claims2

section Claims3

/-- C3, evaluated on the mesh of the default parameters with the real sine and
cosine: the first triangle of the index buffer, the outer triangle
`(v00, v10, v11) = (0, 160, 162)` of the quad `(0, 0)`, and the inner triangle
`(v00i, v11i, v10i) = (1, 163, 161)` of the same quad are triangles of the
buffer, and the normal `cross(b - a, c - a)` of the outer one has a strictly
negative radial component (it points toward the axis, into the wall), that of
the inner one a strictly positive radial component (it points away from the
bore, into the wall). -/
theorem lateral_normals_at_default :
    (0, 160, 162) ∈ triangles (generateGeometry (JSMath.mk Real.sin Real.cos Real.pi Real.sqrt) (defaultParams ℝ)).indices ∧
    (1, 163, 161) ∈ triangles (generateGeometry (JSMath.mk Real.sin Real.cos Real.pi Real.sqrt) (defaultParams ℝ)).indices ∧
    ∃ a b c a' b' c',
      vertexAt (generateGeometry (JSMath.mk Real.sin Real.cos Real.pi Real.sqrt) (defaultParams ℝ)).vertices 0 = some a ∧
      vertexAt (generateGeometry (JSMath.mk Real.sin Real.cos Real.pi Real.sqrt) (defaultParams ℝ)).vertices 160 = some b ∧
      vertexAt (generateGeometry (JSMath.mk Real.sin Real.cos Real.pi Real.sqrt) (defaultParams ℝ)).vertices 162 = some c ∧
      vertexAt (generateGeometry (JSMath.mk Real.sin Real.cos Real.pi Real.sqrt) (defaultParams ℝ)).vertices 1 = some a' ∧
      vertexAt (generateGeometry (JSMath.mk Real.sin Real.cos Real.pi Real.sqrt) (defaultParams ℝ)).vertices 163 = some b' ∧
      vertexAt (generateGeometry (JSMath.mk Real.sin Real.cos Real.pi Real.sqrt) (defaultParams ℝ)).vertices 161 = some c' ∧
      radialComponent (JSMath.mk Real.sin Real.cos Real.pi Real.sqrt) 0 (triNormal a b c) < 0 ∧
      0 < radialComponent (JSMath.mk Real.sin Real.cos Real.pi Real.sqrt) 0 (triNormal a' b' c') := by
  have hn := lateral_normals_inward (JSMath.mk Real.sin Real.cos Real.pi Real.sqrt) rfl rfl rfl (defaultParams ℝ) defaultParams_inUIRanges
    0 0 (by decide)
  refine ⟨?_, ?_, outerPos (JSMath.mk Real.sin Real.cos Real.pi Real.sqrt) (defaultParams ℝ) 0 0, outerPos (JSMath.mk Real.sin Real.cos Real.pi Real.sqrt) (defaultParams ℝ) 1 0,
    outerPos (JSMath.mk Real.sin Real.cos Real.pi Real.sqrt) (defaultParams ℝ) 1 1, innerPos (JSMath.mk Real.sin Real.cos Real.pi Real.sqrt) (defaultParams ℝ) 0 0,
    innerPos (JSMath.mk Real.sin Real.cos Real.pi Real.sqrt) (defaultParams ℝ) 1 1, innerPos (JSMath.mk Real.sin Real.cos Real.pi Real.sqrt) (defaultParams ℝ) 1 0,
    vertexAt_outer (JSMath.mk Real.sin Real.cos Real.pi Real.sqrt) (defaultParams ℝ) 0 0 (by decide) (by decide),
    vertexAt_outer (JSMath.mk Real.sin Real.cos Real.pi Real.sqrt) (defaultParams ℝ) 1 0 (by decide) (by decide),
    vertexAt_outer (JSMath.mk Real.sin Real.cos Real.pi Real.sqrt) (defaultParams ℝ) 1 1 (by decide) (by decide),
    vertexAt_inner (JSMath.mk Real.sin Real.cos Real.pi Real.sqrt) (defaultParams ℝ) 0 0 (by decide) (by decide),
    vertexAt_inner (JSMath.mk Real.sin Real.cos Real.pi Real.sqrt) (defaultParams ℝ) 1 1 (by decide) (by decide),
    vertexAt_inner (JSMath.mk Real.sin Real.cos Real.pi Real.sqrt) (defaultParams ℝ) 1 0 (by decide) (by decide), hn.1, hn.2.2.1⟩
  · rw [triangles_indices, mem_meshTriangles]
    exact Or.inl ⟨0, 0, by decide, by decide, by decide⟩
  · rw [triangles_indices, mem_meshTriangles]
    exact Or.inl ⟨0, 0, by decide, by decide, by decide⟩

/-- C4, evaluated on the mesh of the default parameters with the real sine and
cosine: the cap triangle `(vo0, vi1, vi0) = (0, 3, 1)` built on sample 0 has
its three vertices at height `y = bootLength = 120` and a normal with strictly
negative `y` component (it points down, into the wall), and the cap triangle
`(vo0b, vi0b, vi1b) = (31840, 31841, 31843)` built on sample `NZ - 1` has its
three vertices at height 0 and a normal with strictly positive `y` component
(it points up, into the wall). -/
theorem cap_normals_at_default :
    (0, 3, 1) ∈ triangles (generateGeometry (JSMath.mk Real.sin Real.cos Real.pi Real.sqrt) (defaultParams ℝ)).indices ∧
    (31840, 31841, 31843) ∈ triangles (generateGeometry (JSMath.mk Real.sin Real.cos Real.pi Real.sqrt) (defaultParams ℝ)).indices ∧
    ∃ a b c a' b' c',
      vertexAt (generateGeometry (JSMath.mk Real.sin Real.cos Real.pi Real.sqrt) (defaultParams ℝ)).vertices 0 = some a ∧
      vertexAt (generateGeometry (JSMath.mk Real.sin Real.cos Real.pi Real.sqrt) (defaultParams ℝ)).vertices 3 = some b ∧
      vertexAt (generateGeometry (JSMath.mk Real.sin Real.cos Real.pi Real.sqrt) (defaultParams ℝ)).vertices 1 = some c ∧
      vertexAt (generateGeometry (JSMath.mk Real.sin Real.cos Real.pi Real.sqrt) (defaultParams ℝ)).vertices 31840 = some a' ∧
      vertexAt (generateGeometry (JSMath.mk Real.sin Real.cos Real.pi Real.sqrt) (defaultParams ℝ)).vertices 31841 = some b' ∧
      vertexAt (generateGeometry (JSMath.mk Real.sin Real.cos Real.pi Real.sqrt) (defaultParams ℝ)).vertices 31843 = some c' ∧
      (a.2.1 = 120 ∧ b.2.1 = 120 ∧ c.2.1 = 120) ∧
      (a'.2.1 = 0 ∧ b'.2.1 = 0 ∧ c'.2.1 = 0) ∧
      (triNormal a b c).2.1 < 0 ∧
      0 < (triNormal a' b' c').2.1 := by
  have h0 := cap_normals_inward (JSMath.mk Real.sin Real.cos Real.pi Real.sqrt) rfl rfl rfl (defaultParams ℝ) defaultParams_inUIRanges
    0 0 (by decide)
  have h1 := cap_normals_inward (JSMath.mk Real.sin Real.cos Real.pi Real.sqrt) rfl rfl rfl (defaultParams ℝ) defaultParams_inUIRanges
    (NZ - 1) 0 (by decide)
  have hz0 : (defaultParams ℝ).bootLength - sampleZ (defaultParams ℝ) 0 = 120 := by
    rw [sampleZ_zero]; simp [defaultParams]
  have hz1 : (defaultParams ℝ).bootLength - sampleZ (defaultParams ℝ) (NZ - 1) = 0 := by
    rw [sampleZ_last]; simp
  refine ⟨?_, ?_, outerPos (JSMath.mk Real.sin Real.cos Real.pi Real.sqrt) (defaultParams ℝ) 0 0, innerPos (JSMath.mk Real.sin Real.cos Real.pi Real.sqrt) (defaultParams ℝ) 0 1,
    innerPos (JSMath.mk Real.sin Real.cos Real.pi Real.sqrt) (defaultParams ℝ) 0 0, outerPos (JSMath.mk Real.sin Real.cos Real.pi Real.sqrt) (defaultParams ℝ) (NZ - 1) 0,
    innerPos (JSMath.mk Real.sin Real.cos Real.pi Real.sqrt) (defaultParams ℝ) (NZ - 1) 0, innerPos (JSMath.mk Real.sin Real.cos Real.pi Real.sqrt) (defaultParams ℝ) (NZ - 1) 1,
    vertexAt_outer (JSMath.mk Real.sin Real.cos Real.pi Real.sqrt) (defaultParams ℝ) 0 0 (by decide) (by decide),
    vertexAt_inner (JSMath.mk Real.sin Real.cos Real.pi Real.sqrt) (defaultParams ℝ) 0 1 (by decide) (by decide),
    vertexAt_inner (JSMath.mk Real.sin Real.cos Real.pi Real.sqrt) (defaultParams ℝ) 0 0 (by decide) (by decide),
    vertexAt_outer (JSMath.mk Real.sin Real.cos Real.pi Real.sqrt) (defaultParams ℝ) (NZ - 1) 0 (by decide) (by decide),
    vertexAt_inner (JSMath.mk Real.sin Real.cos Real.pi Real.sqrt) (defaultParams ℝ) (NZ - 1) 0 (by decide) (by decide),
    vertexAt_inner (JSMath.mk Real.sin Real.cos Real.pi Real.sqrt) (defaultParams ℝ) (NZ - 1) 1 (by decide) (by decide),
    ⟨hz0, hz0, hz0⟩, ⟨hz1, hz1, hz1⟩, h0.1, h1.2.2.1⟩
  · rw [triangles_indices, mem_meshTriangles]
    exact Or.inr ⟨0, by decide, by decide⟩
  · rw [triangles_indices, mem_meshTriangles]
    exact Or.inr ⟨0, by decide, by decide⟩

end Claims3

section Claims4

variable {K : Type} [LinearOrderedField K]

theorem facetLinesAt_length (fmt : K → String) (M : JSMath K) (vertices : List K)
    (indices : List Nat) (k : Nat) : (facetLinesAt fmt M vertices indices k).length = 7 := rfl

theorem stlLines_getElem? (fmt : K → String) (M : JSMath K) (vertices : List K)
    (indices : List Nat) (k r : Nat) (hk : k < indices.length / 3) (hr : r < 7) :
    (stlLines fmt M vertices indices)[1 + 7 * k + r]?
      = (facetLinesAt fmt M vertices indices k)[r]? := by
  have hlen := length_flatMap_range (facetLinesAt fmt M vertices indices) 7
    (facetLinesAt_length fmt M vertices indices) (indices.length / 3)
  have e : 1 + 7 * k + r = (k * 7 + r) + 1 := by omega
  simp only [stlLines, List.append_assoc, List.cons_append, List.nil_append]
  rw [e, List.getElem?_cons_succ, List.getElem?_append_left (by rw [hlen]; omega)]
  exact getElem?_flatMap_range _ 7 (facetLinesAt_length fmt M vertices indices) _ k r hk hr

/-- The document of the STL loop is the text of the lines `stlLines`. -/
theorem stlText_eq (fmt : K → String) (M : JSMath K) (vertices : List K) (indices : List Nat)
    (h3 : indices.length % 3 = 0) (hv : ∀ v ∈ indices, v * 3 + 2 < vertices.length) :
    stlText fmt M vertices indices = some (unlines (stlLines fmt M vertices indices)) := by
  have hl : indices.length = 3 * (0 + indices.length / 3) := by omega
  have hloop := stlLoop_eq fmt M vertices indices hv (indices.length / 3) 0 hl "solid cv_boot\n"
  rw [Nat.mul_zero] at hloop
  have ea : unlines ["solid cv_boot"] = "solid cv_boot\n" := rfl
  have eb : unlines ["endsolid cv_boot"] = "endsolid cv_boot\n" := rfl
  rw [stlLines, unlines_append, unlines_append, ea, eb, List.range_eq_range']
  simp only [stlText, hloop, Option.map_some']

/-- C10. Serializer shape: for an index buffer whose length is a multiple of 3
and whose entries are valid vertex indices, the document built by the STL loop
is the line `solid cv_boot`, then `len(indices)/3` facet records of 7 lines
each in triangle order, then the line `endsolid cv_boot`; the record of
triangle `k` occupies lines `1 + 7k .. 7 + 7k`, and its three vertex lines
carry the positions stored at the vertex indices `indices[3k]`,
`indices[3k+1]`, `indices[3k+2]`. -/
theorem serializer_shape (fmt : K → String) (M : JSMath K) (vertices : List K)
    (indices : List Nat) (h3 : indices.length % 3 = 0)
    (hv : ∀ v ∈ indices, v * 3 + 2 < vertices.length) :
    stlText fmt M vertices indices = some (unlines (stlLines fmt M vertices indices)) ∧
    (stlLines fmt M vertices indices).length = 1 + 7 * (indices.length / 3) + 1 ∧
    (stlLines fmt M vertices indices)[0]? = some "solid cv_boot" ∧
    (stlLines fmt M vertices indices)[1 + 7 * (indices.length / 3)]? = some "endsolid cv_boot" ∧
    ∀ k, k < indices.length / 3 →
      (∀ r, r < 7 → (stlLines fmt M vertices indices)[1 + 7 * k + r]?
        = (facetLines fmt M (positionAt vertices (indices.getD (3 * k) 0))
            (positionAt vertices (indices.getD (3 * k + 1) 0))
            (positionAt vertices (indices.getD (3 * k + 2) 0)))[r]?) ∧
      vertexAt vertices (indices.getD (3 * k) 0)
        = some (positionAt vertices (indices.getD (3 * k) 0)) ∧
      vertexAt vertices (indices.getD (3 * k + 1) 0)
        = some (positionAt vertices (indices.getD (3 * k + 1) 0)) ∧
      vertexAt vertices (indices.getD (3 * k + 2) 0)
        = some (positionAt vertices (indices.getD (3 * k + 2) 0)) := by
  have hlen := length_flatMap_range (facetLinesAt fmt M vertices indices) 7
    (facetLinesAt_length fmt M vertices indices) (indices.length / 3)
  refine ⟨?_, ?_, ?_, ?_, fun k hk => ⟨fun r hr => ?_, ?_, ?_, ?_⟩⟩
  · exact stlText_eq fmt M vertices indices h3 hv
  · simp only [stlLines, List.length_append, hlen, List.length_singleton]
    omega
  · simp [stlLines]
  · have e : 1 + 7 * (indices.length / 3) = (indices.length / 3 * 7) + 1 := by omega
    simp only [stlLines, List.append_assoc, List.cons_append, List.nil_append]
    rw [e, List.getElem?_cons_succ, List.getElem?_append_right (by rw [hlen]), hlen]
    simp
  · exact stlLines_getElem? fmt M vertices indices k r hk hr
  · exact readVertex_of_lt _ _ (hv _ (getD_mem _ _ (by omega)))
  · exact readVertex_of_lt _ _ (hv _ (getD_mem _ _ (by omega)))
  · exact readVertex_of_lt _ _ (hv _ (getD_mem _ _ (by omega)))

/-- C10 for a buffer holding the single triangle with corners `(0, 0, 0)`,
`(1, 0, 0)`, `(0, 1, 0)`. -/
theorem serializer_shape_witness :
    stlText (fun q : ℚ => toString q) stubMath [0, 0, 0, 1, 0, 0, 0, 1, 0] [0, 1, 2]
      = some (unlines (stlLines (fun q : ℚ => toString q) stubMath
          [0, 0, 0, 1, 0, 0, 0, 1, 0] [0, 1, 2])) :=
  (serializer_shape (fun q : ℚ => toString q) stubMath [0, 0, 0, 1, 0, 0, 0, 1, 0] [0, 1, 2]
    (by decide) (by decide)).1

/-- The buffers of `generateGeometry` meet the conditions of the serializer:
`downloadSTL` produces the document of the 64000 triangles of the mesh. -/
theorem downloadSTL_eq (fmt : K → String) (M : JSMath K) (p : Params K) :
    downloadSTL fmt M p
      = some (unlines (stlLines fmt M (generateGeometry M p).vertices
          (generateGeometry M p).indices)) ∧
    (generateGeometry M p).indices.length / 3 = 64000 := by
  have hl : (generateGeometry M p).indices.length = 192000 := by
    rw [indices_eq, meshIndices_length]
  have hv : ∀ v ∈ (generateGeometry M p).indices,
      v * 3 + 2 < (generateGeometry M p).vertices.length := by
    intro v hm
    rw [indices_eq] at hm
    have := meshIndices_lt v hm
    rw [vertices_length]
    simp only [NZ, NTheta] at this
    omega
  refine ⟨?_, by rw [hl]⟩
  have h3 : (generateGeometry M p).indices.length % 3 = 0 := by rw [hl]
  exact stlText_eq fmt M _ _ h3 hv

end Claims4

section RadiusFacts

variable {K : Type} [LinearOrderedField K]

/-- The inner radius is the second component of both radius computations. -/
theorem sampleRadii_snd (M : JSMath K) (p : Params K) (i : Nat) :
    (sampleRadii M p i).2 = rInRule p i (rOutRule M p i) := rfl

/-- The inner radius is at most the larger of the two end radii. -/
theorem rInRule_le_max (p : Params K) (i : Nat) (rOut : K) :
    rInRule p i rOut ≤ max (innerSmallR p) (innerBigR p) := by
  simp only [rInRule]
  split_ifs
  · exact le_max_left _ _
  · exact le_max_right _ _
  · exact le_max_left _ _
  · exact le_trans (min_le_right _ _) (le_max_right _ _)

/-- In the midsection the inner radius is `innerSmallR` during the first rib
period. -/
theorem rInRule_first_rib (p : Params K) (i : Nat) (rOut : K) (hm : inMidsection p i)
    (ht : sampleT p i < 1 / p.nRibs) : rInRule p i rOut = innerSmallR p := by
  simp only [rInRule, if_neg hm.1, if_neg hm.2]
  exact if_pos (Or.inr ht)

/-- In the midsection the outer radius is already at least
`innerSmallR + wallThickness` before the guard. -/
theorem rOutRule_mid_ge (M : JSMath K) (p : Params K) (i : Nat) (hm : inMidsection p i) :
    innerSmallR p + p.wallThickness ≤ rOutRule M p i := by
  simp only [rOutRule, if_neg hm.1, if_neg hm.2]
  exact le_max_right _ _

/-- In the midsection the inner radius is at most the outer radius minus the
wall thickness before the guard. -/
theorem rInRule_mid_le (M : JSMath K) (p : Params K) (i : Nat) (hm : inMidsection p i) :
    rInRule p i (rOutRule M p i) ≤ rOutRule M p i - p.wallThickness := by
  have hge := rOutRule_mid_ge M p i hm
  simp only [rInRule, if_neg hm.1, if_neg hm.2]
  split_ifs
  · linarith
  · have hmax : max (rOutRule M p i - p.wallThickness) (innerSmallR p)
        = rOutRule M p i - p.wallThickness := max_eq_left (by linarith)
    rw [hmax]
    exact min_le_left _ _

/-- The condition of the guard of line 112 is false in the midsection. -/
theorem guard_false_mid (M : JSMath K) (p : Params K) (i : Nat) (hm : inMidsection p i) :
    ¬ (rOutRule M p i < rInRule p i (rOutRule M p i) + p.wallThickness) := by
  have := rInRule_mid_le M p i hm
  intro h
  linarith

/-- The condition of the guard of line 112 is false in the flat zones when the
shoulder height is not negative. -/
theorem guard_false_flat (M : JSMath K) (p : Params K) (i : Nat)
    (hs : 0 ≤ p.shoulderHeight) (hf : inSmallFlat p i ∨ inBigFlat p i) :
    ¬ (rOutRule M p i < rInRule p i (rOutRule M p i) + p.wallThickness) := by
  by_cases h1 : inSmallFlat p i
  · simp only [rOutRule, rInRule, if_pos h1, rSmallOuter]
    split_ifs <;> intro h <;> linarith
  · have h2 : inBigFlat p i := by tauto
    simp only [rOutRule, rInRule, if_neg h1, if_pos h2, rBigOuter]
    split_ifs <;> intro h <;> norm_num at h <;> linarith

/-- When the condition of the guard is false the guard changes nothing. -/
theorem sampleRadii_of_guard_false (M : JSMath K) (p : Params K) (i : Nat)
    (h : ¬ (rOutRule M p i < rInRule p i (rOutRule M p i) + p.wallThickness)) :
    sampleRadii M p i = sampleRadiiNoGuard M p i := by
  simp only [sampleRadii, sampleRadiiNoGuard, if_neg h]

end RadiusFacts

section Claims5

variable {K : Type} [LinearOrderedField K]

/-- C12, amended. Inner-radius rule in exact arithmetic: over an ordered
field, when `innerSmallR <= innerBigR` and `nRibs >= 1`, the inner radius of
every axial sample lies in `[innerSmallR, innerBigR]`; at a
midsection sample with `t < 1/nRibs` it equals `innerSmallR`, so with
`nRibs = 1` it equals `innerSmallR` at every midsection sample; every
parameter set in the UI ranges has `innerSmallR <= 15 < 21.25 <= innerBigR`;
and the first rib zone `1/nRibs` lies in `(0, 1]`. -/
theorem inner_radius_rule (M : JSMath K) (p : Params K) (i : Nat)
    (h : innerSmallR p ≤ innerBigR p) (hn : 1 ≤ p.nRibs) :
    (innerSmallR p ≤ (sampleRadii M p i).2 ∧ (sampleRadii M p i).2 ≤ innerBigR p) ∧
    (inMidsection p i → sampleT p i < 1 / p.nRibs →
      (sampleRadii M p i).2 = innerSmallR p) ∧
    (p.nRibs = 1 → inMidsection p i → (sampleRadii M p i).2 = innerSmallR p) ∧
    (InUIRanges p → innerSmallR p ≤ 15 ∧ (15 : K) < 21.25 ∧ 21.25 ≤ innerBigR p) ∧
    (0 < 1 / p.nRibs ∧ 1 / p.nRibs ≤ 1) := by
  refine ⟨⟨?_, ?_⟩, ?_, ?_, ?_, ?_⟩
  · have := rIn_ge_min M p i
    rwa [min_eq_left h] at this
  · have := rInRule_le_max p i (rOutRule M p i)
    rwa [max_eq_right h, ← sampleRadii_snd M] at this
  · intro hm ht
    rw [sampleRadii_snd]
    exact rInRule_first_rib p i _ hm ht
  · intro h1 hm
    rw [sampleRadii_snd]
    refine rInRule_first_rib p i _ hm ?_
    rw [h1, div_one]
    exact (midsection_facts p i hm).2.2
  · rintro ⟨_, ⟨hd0, hd⟩, ⟨hc, _⟩, ⟨hs0, hs⟩, ⟨hb, _⟩, _⟩
    refine ⟨?_, by norm_num, ?_⟩
    · simp only [innerSmallR]
      have h1 : p.shaftD * p.stretchSmall ≤ 30 * 1 :=
        mul_le_mul hd (by norm_num at hs; linarith) (by norm_num at hs0; linarith) (by norm_num)
      linarith
    · simp only [innerBigR]
      have h1 : (50 : K) * 0.85 ≤ p.cupD * p.stretchBig :=
        mul_le_mul hc hb (by norm_num) (by linarith)
      norm_num at h1 ⊢
      linarith
  · have hpos : 0 < p.nRibs := lt_of_lt_of_le one_pos hn
    exact ⟨div_pos one_pos hpos, (div_le_one hpos).mpr hn⟩

/-- C12, amended, at sample 25 of the default parameters, which lies in the first rib
period of the midsection, and of the default parameters with `nRibs = 1`. -/
theorem inner_radius_rule_witness :
    (innerSmallR (defaultParams ℚ) ≤ (sampleRadii stubMath (defaultParams ℚ) 25).2 ∧
      (sampleRadii stubMath (defaultParams ℚ) 25).2 ≤ innerBigR (defaultParams ℚ)) ∧
    (sampleRadii stubMath (defaultParams ℚ) 25).2 = innerSmallR (defaultParams ℚ) ∧
    (sampleRadii stubMath { defaultParams ℚ with nRibs := 1 } 100).2
      = innerSmallR { defaultParams ℚ with nRibs := 1 } :=
  ⟨(inner_radius_rule stubMath (defaultParams ℚ) 25
      (by simp only [innerSmallR, innerBigR, defaultParams]; norm_num)
      (by simp only [defaultParams]; norm_num)).1,
    (inner_radius_rule stubMath (defaultParams ℚ) 25
      (by simp only [innerSmallR, innerBigR, defaultParams]; norm_num)
      (by simp only [defaultParams]; norm_num)).2.1
      (by simp only [inMidsection, inSmallFlat, inBigFlat, sampleZ, defaultParams, NZ]
          norm_num)
      (by simp only [sampleT, sampleZ, LMid, defaultParams, NZ]
          norm_num),
    (inner_radius_rule stubMath { defaultParams ℚ with nRibs := 1 } 100
      (by simp only [innerSmallR, innerBigR, defaultParams]; norm_num)
      (by simp only [defaultParams]; norm_num)).2.2.1 rfl
      (by simp only [inMidsection, inSmallFlat, inBigFlat, sampleZ, defaultParams, NZ]
          norm_num)⟩

/-- C13. The degenerate-case guard of lines 112-114 is redundant whenever
`shoulderHeight >= 0`: its condition `rOut < rIn + wallThickness` is false at
every sample, so the computation with the guard removed gives the same radii;
in the midsection this holds for every parameter set, because `rOut` is
already at least `innerSmallR + wallThickness` and `rIn` is at most
`rOut - wallThickness`. -/
theorem guard_redundant (M : JSMath K) (p : Params K) (i : Nat) :
    (0 ≤ p.shoulderHeight →
      ¬ (rOutRule M p i < rInRule p i (rOutRule M p i) + p.wallThickness) ∧
      sampleRadii M p i = sampleRadiiNoGuard M p i) ∧
    (inMidsection p i →
      innerSmallR p + p.wallThickness ≤ rOutRule M p i ∧
      rInRule p i (rOutRule M p i) ≤ rOutRule M p i - p.wallThickness ∧
      ¬ (rOutRule M p i < rInRule p i (rOutRule M p i) + p.wallThickness) ∧
      sampleRadii M p i = sampleRadiiNoGuard M p i) := by
  refine ⟨fun hs => ?_, fun hm => ?_⟩
  · have hg : ¬ (rOutRule M p i < rInRule p i (rOutRule M p i) + p.wallThickness) := by
      by_cases hf : inSmallFlat p i ∨ inBigFlat p i
      · exact guard_false_flat M p i hs hf
      · rw [not_or] at hf
        exact guard_false_mid M p i hf
    exact ⟨hg, sampleRadii_of_guard_false M p i hg⟩
  · exact ⟨rOutRule_mid_ge M p i hm, rInRule_mid_le M p i hm, guard_false_mid M p i hm,
      sampleRadii_of_guard_false M p i (guard_false_mid M p i hm)⟩

/-- C13 at sample 100 of the default parameters, a midsection sample of a
parameter set with `shoulderHeight = 2`. -/
theorem guard_redundant_witness :
    sampleRadii stubMath (defaultParams ℚ) 100 = sampleRadiiNoGuard stubMath (defaultParams ℚ) 100 ∧
    rInRule (defaultParams ℚ) 100 (rOutRule stubMath (defaultParams ℚ) 100)
      ≤ rOutRule stubMath (defaultParams ℚ) 100 - (defaultParams ℚ).wallThickness :=
  ⟨((guard_redundant stubMath (defaultParams ℚ) 100).1
      (by simp only [defaultParams]; norm_num)).2,
    ((guard_redundant stubMath (defaultParams ℚ) 100).2
      (by simp only [inMidsection, inSmallFlat, inBigFlat, sampleZ, defaultParams, NZ]
          norm_num)).2.1⟩

end Claims5

section NormalFacts

/-- The divisor `len` of line 200 is never zero, whatever `Math.sqrt`
returns. -/
theorem normalLen_ne_zero {K : Type} [LinearOrderedField K] (M : JSMath K) (n : K × K × K) :
    normalLen M n ≠ 0 := by
  simp only [normalLen]
  split_ifs with h
  · exact one_ne_zero
  · exact h

theorem normSq_nonneg {K : Type} [LinearOrderedField K] (n : K × K × K) : 0 ≤ normSq n := by
  simp only [normSq]
  have h1 := mul_self_nonneg n.1
  have h2 := mul_self_nonneg n.2.1
  have h3 := mul_self_nonneg n.2.2
  linarith

/-- The sum of squares vanishes exactly for the zero vector. -/
theorem normSq_eq_zero {K : Type} [LinearOrderedField K] (n : K × K × K) :
    normSq n = 0 ↔ n = (0, 0, 0) := by
  obtain ⟨x, y, z⟩ := n
  simp only [normSq, Prod.mk.injEq]
  constructor
  · intro h
    have h1 := mul_self_nonneg x
    have h2 := mul_self_nonneg y
    have h3 := mul_self_nonneg z
    refine ⟨mul_self_eq_zero.mp ?_, mul_self_eq_zero.mp ?_, mul_self_eq_zero.mp ?_⟩ <;> linarith
  · rintro ⟨rfl, rfl, rfl⟩
    simp

/-- With the real square root, `len` is the Euclidean length of the cross
product, or 1 when that length is 0. -/
theorem normalLen_real (M : JSMath ℝ) (hs : M.sqrt = Real.sqrt) (n : ℝ × ℝ × ℝ) :
    normalLen M n = if Real.sqrt (normSq n) = 0 then 1 else Real.sqrt (normSq n) := by
  simp only [normalLen, hs, normSq]

theorem normalLen_of_ne (M : JSMath ℝ) (hs : M.sqrt = Real.sqrt) (n : ℝ × ℝ × ℝ)
    (hn : n ≠ (0, 0, 0)) : normalLen M n = Real.sqrt (normSq n) ∧ 0 < Real.sqrt (normSq n) := by
  have hpos : 0 < normSq n :=
    lt_of_le_of_ne (normSq_nonneg n) (fun h => hn ((normSq_eq_zero n).mp h.symm))
  have hsq : 0 < Real.sqrt (normSq n) := Real.sqrt_pos.mpr hpos
  rw [normalLen_real M hs, if_neg hsq.ne.symm]
  exact ⟨rfl, hsq⟩

theorem normalLen_of_eq (M : JSMath ℝ) (hs : M.sqrt = Real.sqrt) (n : ℝ × ℝ × ℝ)
    (hn : n = (0, 0, 0)) : normalLen M n = 1 := by
  rw [normalLen_real M hs, (normSq_eq_zero n).mpr hn, Real.sqrt_zero, if_pos rfl]

end NormalFacts

section NormalSpec

/-- The cross product computed by lines 193-197 is the cross product of the
edges `b - a` and `c - a`. -/
theorem triNormal_eq_cross {K : Type} [LinearOrderedField K] (a b c : K × K × K) :
    triNormal a b c = crossProduct (vecSub b a) (vecSub c a) := by
  simp only [triNormal, crossProduct, vecSub]

/-- With the real square root, the normal of line 200 is the normal of the
specification. -/
theorem emittedNormal_eq_spec (M : JSMath ℝ) (hs : M.sqrt = Real.sqrt) (a b c : ℝ × ℝ × ℝ) :
    emittedNormal M a b c = specNormal Real.sqrt a b c := by
  simp only [emittedNormal, specNormal, specLen, ← triNormal_eq_cross, normalLen_real M hs]

/-- The facts about the normal of line 200, with the real square root. -/
theorem emittedNormal_facts (M : JSMath ℝ) (hs : M.sqrt = Real.sqrt) (a b c : ℝ × ℝ × ℝ) :
    (triNormal a b c ≠ (0, 0, 0) →
      Real.sqrt (normSq (emittedNormal M a b c)) = 1 ∧
      ∃ k : ℝ, 0 < k ∧ emittedNormal M a b c
        = (k * (triNormal a b c).1, k * (triNormal a b c).2.1, k * (triNormal a b c).2.2)) ∧
    (triNormal a b c = (0, 0, 0) →
      normalLen M (triNormal a b c) = 1 ∧ emittedNormal M a b c = (0, 0, 0)) := by
  refine ⟨fun hn => ?_, fun hn => ?_⟩
  · obtain ⟨hlen, hpos⟩ := normalLen_of_ne M hs _ hn
    have hsq : Real.sqrt (normSq (triNormal a b c)) * Real.sqrt (normSq (triNormal a b c))
        = normSq (triNormal a b c) := Real.mul_self_sqrt (normSq_nonneg _)
    constructor
    · have e : normSq (emittedNormal M a b c)
          = normSq (triNormal a b c)
            / (Real.sqrt (normSq (triNormal a b c)) * Real.sqrt (normSq (triNormal a b c))) := by
        simp only [emittedNormal, hlen]
        generalize Real.sqrt (normSq (triNormal a b c)) = s at hpos
        simp only [normSq]
        field_simp
      have hne : normSq (triNormal a b c) ≠ 0 := fun h => hn ((normSq_eq_zero _).mp h)
      rw [e, hsq, div_self hne, Real.sqrt_one]
    · refine ⟨1 / Real.sqrt (normSq (triNormal a b c)), div_pos one_pos hpos, ?_⟩
      simp only [emittedNormal, hlen, Prod.mk.injEq]
      refine ⟨?_, ?_, ?_⟩ <;> field_simp
  · have hlen := normalLen_of_eq M hs _ hn
    refine ⟨hlen, ?_⟩
    simp only [emittedNormal, hlen, div_one]
    exact hn

/-- The text of the STL loop for a buffer that holds the single triangle with
corners `a`, `b`, `c`. -/
theorem facetText_single {K : Type} [LinearOrderedField K] (fmt : K → String) (M : JSMath K)
    (a b c : K × K × K) :
    facetText fmt M [a.1, a.2.1, a.2.2, b.1, b.2.1, b.2.2, c.1, c.2.1, c.2.2] [0, 1, 2] 0
      = some (unlines
          ["  facet normal " ++ fmt (emittedNormal M a b c).1 ++ " "
              ++ fmt (emittedNormal M a b c).2.1 ++ " " ++ fmt (emittedNormal M a b c).2.2,
           "    outer loop", vertexLine fmt a, vertexLine fmt b, vertexLine fmt c,
           "    endloop", "  endfacet"]) := by
  have h := facetText_eq fmt M [a.1, a.2.1, a.2.2, b.1, b.2.1, b.2.2, c.1, c.2.1, c.2.2]
    [0, 1, 2] (by intro v hv; simp at hv; rcases hv with rfl | rfl | rfl <;> simp) 0
    (by simp)
  rw [Nat.mul_zero] at h
  rw [h]
  rfl

end NormalSpec

section Claims6

set_option maxRecDepth 100000
set_option exponentiation.threshold 4096

/-- C11, the claim as stated fails: in the double arithmetic of the program the
triangle with corners `(1, 0, 0)`, `(2^60, 2^60, 0)`, `(2^61, 2^61, 0)`, whose
coordinates are exact in single and double precision, is not degenerate (its
cross product is `(0, 0, -2^60)`), but the cross product computed in doubles
is zero and the emitted normal is `(0, 0, 0)`, not a vector of length 1. -/
theorem serializer_normal_claim_fails :
    crossProduct (vecSub ((2 ^ 60, 2 ^ 60, 0) : ℚ × ℚ × ℚ) (1, 0, 0))
        (vecSub ((2 ^ 61, 2 ^ 61, 0) : ℚ × ℚ × ℚ) (1, 0, 0)) = (0, 0, -2 ^ 60) ∧
    (JSNum.ofNat 1 = JSNum.fin false (2 ^ 52) (-52) ∧
      JSNum.ofNat (2 ^ 60) = JSNum.fin false (2 ^ 52) 8 ∧
      JSNum.ofNat (2 ^ 61) = JSNum.fin false (2 ^ 52) 9) ∧
    ∀ M : JSMathD,
      emittedNormalD M (JSNum.ofNat 1, JSNum.ofNat 0, JSNum.ofNat 0)
          (JSNum.ofNat (2 ^ 60), JSNum.ofNat (2 ^ 60), JSNum.ofNat 0)
          (JSNum.ofNat (2 ^ 61), JSNum.ofNat (2 ^ 61), JSNum.ofNat 0)
        = (JSNum.fin false 0 (-1074), JSNum.fin false 0 (-1074), JSNum.fin false 0 (-1074)) := by
  refine ⟨?_, by decide, fun M => rfl⟩
  simp only [crossProduct, vecSub, Prod.mk.injEq]
  norm_num

/-- C11, amended. Serializer normal in exact arithmetic: with the real square
root, the facet record the STL loop writes for a triangle with corners `a`,
`b`, `c` carries the normal `cross(b - a, c - a) / len`, where `len` is the
Euclidean length of that cross product, or 1 when that length is 0, and `len`
is never zero; for a non-degenerate triangle the emitted normal has length
exactly 1 and is a positive multiple of the cross product; for a degenerate
triangle (zero cross product) `len` is 1 and the emitted normal is
`(0, 0, 0)`. -/
theorem serializer_normal (M : JSMath ℝ) (hs : M.sqrt = Real.sqrt) (fmt : ℝ → String)
    (a b c : ℝ × ℝ × ℝ) :
    facetText fmt M [a.1, a.2.1, a.2.2, b.1, b.2.1, b.2.2, c.1, c.2.1, c.2.2] [0, 1, 2] 0
      = some (unlines
          ["  facet normal " ++ fmt (specNormal Real.sqrt a b c).1 ++ " "
              ++ fmt (specNormal Real.sqrt a b c).2.1 ++ " "
              ++ fmt (specNormal Real.sqrt a b c).2.2,
           "    outer loop", vertexLine fmt a, vertexLine fmt b, vertexLine fmt c,
           "    endloop", "  endfacet"]) ∧
    specLen Real.sqrt (crossProduct (vecSub b a) (vecSub c a))
      = (if Real.sqrt ((crossProduct (vecSub b a) (vecSub c a)).1 ^ 2
            + (crossProduct (vecSub b a) (vecSub c a)).2.1 ^ 2
            + (crossProduct (vecSub b a) (vecSub c a)).2.2 ^ 2) = 0 then 1
          else Real.sqrt ((crossProduct (vecSub b a) (vecSub c a)).1 ^ 2
            + (crossProduct (vecSub b a) (vecSub c a)).2.1 ^ 2
            + (crossProduct (vecSub b a) (vecSub c a)).2.2 ^ 2)) ∧
    specLen Real.sqrt (crossProduct (vecSub b a) (vecSub c a)) ≠ 0 ∧
    (crossProduct (vecSub b a) (vecSub c a) ≠ (0, 0, 0) →
      Real.sqrt ((specNormal Real.sqrt a b c).1 ^ 2 + (specNormal Real.sqrt a b c).2.1 ^ 2
        + (specNormal Real.sqrt a b c).2.2 ^ 2) = 1 ∧
      ∃ k : ℝ, 0 < k ∧ specNormal Real.sqrt a b c
        = (k * (crossProduct (vecSub b a) (vecSub c a)).1,
           k * (crossProduct (vecSub b a) (vecSub c a)).2.1,
           k * (crossProduct (vecSub b a) (vecSub c a)).2.2)) ∧
    (crossProduct (vecSub b a) (vecSub c a) = (0, 0, 0) →
      specLen Real.sqrt (crossProduct (vecSub b a) (vecSub c a)) = 1 ∧
      specNormal Real.sqrt a b c = (0, 0, 0)) := by
  have hspec := emittedNormal_eq_spec M hs a b c
  have hcross := triNormal_eq_cross a b c
  have hlen : normalLen M (triNormal a b c)
      = specLen Real.sqrt (crossProduct (vecSub b a) (vecSub c a)) := by
    rw [normalLen_real M hs, hcross, specLen]
  have hfacts := emittedNormal_facts M hs a b c
  rw [hspec, hcross] at hfacts
  have hsq : ∀ n : ℝ × ℝ × ℝ, n.1 ^ 2 + n.2.1 ^ 2 + n.2.2 ^ 2 = normSq n := by
    intro n; simp only [normSq]; ring
  refine ⟨?_, ?_, ?_, ?_, ?_⟩
  · rw [facetText_single, hspec]
  · rw [hsq, specLen]
  · rw [← hlen]
    exact normalLen_ne_zero M _
  · intro hn
    rw [hsq]
    exact hfacts.1 hn
  · intro hn
    have := hfacts.2 hn
    rw [hcross] at hlen
    rw [hlen] at this
    exact this

/-- C11, amended, for the triangle with corners `(0, 0, 0)`, `(3, 0, 0)`,
`(0, 4, 0)`, whose cross product is `(0, 0, 12)`, and for the degenerate
triangle whose three corners are `(1, 2, 3)`. -/
theorem serializer_normal_witness :
    (Real.sqrt ((specNormal Real.sqrt ((0, 0, 0) : ℝ × ℝ × ℝ) (3, 0, 0) (0, 4, 0)).1 ^ 2
        + (specNormal Real.sqrt ((0, 0, 0) : ℝ × ℝ × ℝ) (3, 0, 0) (0, 4, 0)).2.1 ^ 2
        + (specNormal Real.sqrt ((0, 0, 0) : ℝ × ℝ × ℝ) (3, 0, 0) (0, 4, 0)).2.2 ^ 2) = 1 ∧
      ∃ k : ℝ, 0 < k ∧ specNormal Real.sqrt ((0, 0, 0) : ℝ × ℝ × ℝ) (3, 0, 0) (0, 4, 0)
        = (k * (crossProduct (vecSub ((3, 0, 0) : ℝ × ℝ × ℝ) (0, 0, 0))
              (vecSub ((0, 4, 0) : ℝ × ℝ × ℝ) (0, 0, 0))).1,
           k * (crossProduct (vecSub ((3, 0, 0) : ℝ × ℝ × ℝ) (0, 0, 0))
              (vecSub ((0, 4, 0) : ℝ × ℝ × ℝ) (0, 0, 0))).2.1,
           k * (crossProduct (vecSub ((3, 0, 0) : ℝ × ℝ × ℝ) (0, 0, 0))
              (vecSub ((0, 4, 0) : ℝ × ℝ × ℝ) (0, 0, 0))).2.2)) ∧
    (specLen Real.sqrt (crossProduct (vecSub ((1, 2, 3) : ℝ × ℝ × ℝ) (1, 2, 3))
        (vecSub ((1, 2, 3) : ℝ × ℝ × ℝ) (1, 2, 3))) = 1 ∧
      specNormal Real.sqrt ((1, 2, 3) : ℝ × ℝ × ℝ) (1, 2, 3) (1, 2, 3) = (0, 0, 0)) :=
  ⟨(serializer_normal (JSMath.mk Real.sin Real.cos Real.pi Real.sqrt) rfl (fun _ => "")
      (0, 0, 0) (3, 0, 0) (0, 4, 0)).2.2.2.1
      (by simp [crossProduct, vecSub]),
    (serializer_normal (JSMath.mk Real.sin Real.cos Real.pi Real.sqrt) rfl (fun _ => "")
      (1, 2, 3) (1, 2, 3) (1, 2, 3)).2.2.2.2
      (by simp [crossProduct, vecSub])⟩

end Claims6

section DoubleFacts

open JSNum

set_option maxRecDepth 100000
set_option exponentiation.threshold 4096

/-- The two flat lengths of `roundingParams` sum to `bootLength` in doubles,
and the midsection length `LMid` is `+0` in doubles. -/
theorem roundingParams_degenerate :
    add (roundingParams 1 0).flatSmallLen (roundingParams 1 0).flatBigLen
      = (roundingParams 1 0).bootLength ∧
    LMidD (roundingParams 1 0) = fin false 0 (-1074) := by
  decide

/-- Sample 5 of `roundingParams` is in neither flat zone in doubles, and its
normalized position is `+Infinity`. -/
theorem roundingParams_sample5 :
    inSmallFlatD (roundingParams 1 0) 5 = false ∧ inBigFlatD (roundingParams 1 0) 5 = false ∧
    sampleTD (roundingParams 1 0) 5 = inf false := by
  decide

/-- C9, the claim as stated fails: in the double arithmetic of the program, for
the parameter set with `bootLength = 120`,
`flatSmallLen = 3.0150753768844205`, `flatBigLen = 116.98492462311557`,
`nRibs = 1`, `ribAmp = 0`, where `flatSmallLen + flatBigLen >= bootLength`
holds, sample 5 is in neither flat zone, so the midsection branch is taken,
although `LMid` is 0 and not positive: the quotient by `LMid` is `+Infinity`,
not below 1, and both radii of the sample are NaN. -/
theorem degenerate_input_claim_fails :
    le (roundingParams 1 0).bootLength
      (add (roundingParams 1 0).flatSmallLen (roundingParams 1 0).flatBigLen) = true ∧
    (inSmallFlatD (roundingParams 1 0) 5 = false ∧
      inBigFlatD (roundingParams 1 0) 5 = false) ∧
    LMidD (roundingParams 1 0) = fin false 0 (-1074) ∧
    lt (ofNat 0) (LMidD (roundingParams 1 0)) = false ∧
    sampleTD (roundingParams 1 0) 5 = inf false ∧
    lt (sampleTD (roundingParams 1 0) 5) (ofNat 1) = false ∧
    ∀ M : JSMathD, sampleRadiiD M (roundingParams 1 0) 5 = (nan, nan) := by
  refine ⟨by decide, by decide, by decide, by decide, by decide, by decide, fun M => rfl⟩

/-- C12, the claim as stated fails: in the double arithmetic of the program,
for the default parameters with `flatSmallLen = 3.0150753768844205` and
`flatBigLen = 116.98492462311557`, where `innerSmallR <= innerBigR` and
`nRibs = 8 >= 1`, the inner radius of sample 5 is NaN, which is neither at
least `innerSmallR` nor at most `innerBigR`; and with `nRibs = 1` sample 5 is
a midsection sample whose inner radius is NaN, not `innerSmallR`. -/
theorem inner_radius_claim_fails :
    le (innerSmallRD (roundingParams 8 7)) (innerBigRD (roundingParams 8 7)) = true ∧
    le (ofNat 1) (roundingParams 8 7).nRibs = true ∧
    (∀ M : JSMathD, (sampleRadiiD M (roundingParams 8 7) 5).2 = nan ∧
      le (innerSmallRD (roundingParams 8 7)) (sampleRadiiD M (roundingParams 8 7) 5).2 = false ∧
      le (sampleRadiiD M (roundingParams 8 7) 5).2 (innerBigRD (roundingParams 8 7)) = false) ∧
    (inSmallFlatD (roundingParams 1 7) 5 = false ∧
      inBigFlatD (roundingParams 1 7) 5 = false) ∧
    ∀ M : JSMathD, (sampleRadiiD M (roundingParams 1 7) 5).2 = nan ∧
      (sampleRadiiD M (roundingParams 1 7) 5).2 ≠ innerSmallRD (roundingParams 1 7) := by
  have h8 : ∀ M : JSMathD, (sampleRadiiD M (roundingParams 8 7) 5).2 = nan := fun M => rfl
  have h1 : ∀ M : JSMathD, (sampleRadiiD M (roundingParams 1 7) 5).2 = nan := fun M => rfl
  refine ⟨by decide, by decide, fun M => ⟨h8 M, ?_, ?_⟩, by decide, fun M => ⟨h1 M, ?_⟩⟩
  · rw [h8 M]; decide
  · rw [h8 M]; decide
  · rw [h1 M]; decide

end DoubleFacts

end CVBoot
